import Mathlib

/-!
# Flat primitives of the ray tracer (`src/hittable/2dhittables.hpp`)

A shallow embedding of the five flat primitives `plane`, `disk`, `xy_rect`,
`xz_rect`, `yz_rect`, followed by theorems about their `hit` and `bounding_box`
member functions.

Numbers.  The C++ `float`/`double` values are embedded as exact rationals `ℚ`,
so the statements about this embedding are statements over exact arithmetic:
rounding, infinities and NaN are not represented.  A division whose divisor is
zero is outside this model (Lean evaluates `x / 0` to `0`), hence the theorems
that depend on the quotient carry the hypothesis that the divisor is non-zero.
The literals `.0001f` and `.01f` are embedded as `1/10000` and `1/100`.

Special values.  What the rectangles do when the divisor is zero is settled on a
second embedding of their `hit` functions, over `xfloat`: the exact rationals
extended with NaN, the two infinities and negative zero, with the IEEE 754
results of the arithmetic and the comparisons on them.  The two embeddings agree
on finite inputs with a non-zero divisor (`ieee_xy_rect_hit_exact`,
`ieee_xy_rect_uv_exact` and their siblings).

Rounding.  Where a boolean outcome of `disk::hit` depends on the rounding to
`float`, it is settled on a third embedding, `plane.hit32` and `disk.hit32`, which
rounds to binary32 (`round32`) at every place where the source computes in
`float`.

In/out parameters.  `hit(r, t_min, t_max, rec)` mutates `rec` and returns a
`bool`; it is embedded as a function returning the pair of the boolean and the
record after the call.  `bounding_box` is embedded the same way.
-/

namespace Hittable2D

/-! ## Collaborator types (`vec3.hpp`, `ray.hpp`, `hittable.hpp`, `aabb.hpp`) -/

/-- Modelled from the spec: `vec3.hpp` is not among the sources.  A vector of three
coordinates with accessors `x()`, `y()`, `z()`. -/
structure vec3 where
  x : ℚ
  y : ℚ
  z : ℚ
deriving DecidableEq, Repr

/-- The alias `point3` of `vec3`. -/
abbrev point3 := vec3

namespace vec3

/-- Componentwise sum, `operator+`. -/
def add (a b : vec3) : vec3 := ⟨a.x + b.x, a.y + b.y, a.z + b.z⟩

/-- Componentwise difference, `operator-`. -/
def sub (a b : vec3) : vec3 := ⟨a.x - b.x, a.y - b.y, a.z - b.z⟩

/-- Unary minus. -/
def neg (a : vec3) : vec3 := ⟨-a.x, -a.y, -a.z⟩

/-- Scaling by a number, `operator*`. -/
def smul (t : ℚ) (a : vec3) : vec3 := ⟨t * a.x, t * a.y, t * a.z⟩

end vec3

/-- Dot product of two vectors. -/
def dot (a b : vec3) : ℚ := a.x * b.x + a.y * b.y + a.z * b.z

/-- Modelled from the spec: `ray.hpp` is not among the sources.  A ray is an origin, a
direction and a time. -/
structure ray where
  orig : point3
  dir : vec3
  tm : ℚ
deriving DecidableEq, Repr

namespace ray

/-- Accessor `origin()`. -/
def origin (r : ray) : point3 := r.orig

/-- Accessor `direction()`. -/
def direction (r : ray) : vec3 := r.dir

/-- Parametric evaluation: `at(t) = origin + t * direction`. -/
def «at» (r : ray) (t : ℚ) : point3 := vec3.add r.orig (vec3.smul t r.dir)

end ray

/-- Handle of a material (`shared_ptr<material>`): never inspected by the primitives,
only stored in the record. -/
abbrev material := ℕ

/-- Modelled from the spec: `hittable.hpp` is not among the sources.  The record that
`hit` writes: point, normal, material, ray parameter, texture coordinates and the
front-face flag. -/
structure hit_record where
  p : point3
  normal : vec3
  mat_ptr : material
  t : ℚ
  u : ℚ
  v : ℚ
  front_face : Bool
deriving DecidableEq, Repr

/-- Modelled from the spec: `hit_record::set_face_normal` lives in `hittable.hpp`, which is
not among the sources.  The outward normal is flipped when
`dot(outward_normal, ray.direction) > 0`, and the flag records whether the normal
was left as it was. -/
def hit_record.set_face_normal (rec : hit_record) (r : ray) (outward_normal : vec3) :
    hit_record :=
  if dot outward_normal r.direction > 0 then
    { rec with front_face := false, normal := vec3.neg outward_normal }
  else
    { rec with front_face := true, normal := outward_normal }

/-- Modelled from the spec: `aabb.hpp` is not among the sources.  An axis-aligned box given
by its minimum and maximum corners, in world `(x, y, z)` axes. -/
structure aabb where
  minimum : point3
  maximum : point3
deriving DecidableEq, Repr

/-- The float literal `.0001f`. -/
def eps : ℚ := 1 / 10000

/-- The float literal `.01f`. -/
def slab : ℚ := 1 / 100

/-! ## `plane` -/

/-- The class `plane`: private `cen` and `mat_ptr`, protected `normal`. -/
structure plane where
  cen : point3
  mat_ptr : material
  normal : vec3
deriving DecidableEq, Repr

namespace plane

/-- Constructor `plane(c, n, m)`. -/
def new (c : point3) (n : vec3) (m : material) : plane :=
  { cen := c, mat_ptr := m, normal := n }

/-- The private helper `get_plane_uv(p, u, v)`: returns the pair `(u, v)` it writes. -/
def get_plane_uv (p : point3) : ℚ × ℚ := (p.x, p.z)

/-- The member `plane::hit`.  The pair `st` holds the locals `(hit, t)` after the `if`:
`t` is declared without an initialiser, and `t_uninit` stands for whatever it holds
when the branch that assigns it is not taken.  `t_min` and `t_max` are parameters the
body never reads.  The record is written on every path, and `get_plane_uv` is called
on `normal`. -/
def hit (pl : plane) (r : ray) (_t_min _t_max : ℚ) (rec : hit_record) (t_uninit : ℚ) :
    Bool × hit_record :=
  let den := dot pl.normal r.direction
  let st : Bool × ℚ :=
    if |den| > eps then
      let t := dot (vec3.sub pl.cen r.origin) pl.normal / den
      (if t ≥ eps then true else false, t)
    else (false, t_uninit)
  let rec1 := { rec with t := st.2 }
  let rec2 := { rec1 with p := r.at rec1.t }
  let rec3 := { rec2 with normal := pl.normal }
  let uv := get_plane_uv pl.normal
  let rec4 := { rec3 with u := uv.1, v := uv.2 }
  (st.1, { rec4 with mat_ptr := pl.mat_ptr })

/-- The member `plane::bounding_box`: returns false and leaves the box as it was. -/
def bounding_box (_pl : plane) (_time0 _time1 : ℚ) (output_box : aabb) : Bool × aabb :=
  (false, output_box)

end plane

/-! ## `disk` -/

/-- The class `disk : public plane`.  Besides the inherited `plane` sub-object it declares
its own private `cen` (which hides the private `plane::cen`) and `radius`. -/
structure disk where
  base : plane
  cen : point3
  radius : ℚ
deriving DecidableEq, Repr

namespace disk

/-- Constructor `disk(c, n, r, m) : plane(c, n, m), radius{r} {}`.  The member
`disk::cen` has no initialiser in the constructor, so it is default-constructed;
`dflt` is the value of a default-constructed `point3` (`vec3.hpp` is not among the
sources). -/
def new (c : point3) (n : vec3) (r : ℚ) (m : material) (dflt : point3) : disk :=
  { base := plane.new c n m, cen := dflt, radius := r }

/-- The member `disk::hit`.  The radius test is decided over exact rationals here;
`disk.hit32` is the same function with the binary32 roundings of the source. -/
def hit (d : disk) (r : ray) (t_min t_max : ℚ) (rec : hit_record) (t_uninit : ℚ) :
    Bool × hit_record :=
  let res := plane.hit d.base r t_min t_max rec t_uninit
  if res.1 then
    let p := vec3.add (vec3.smul res.2.t r.direction) r.origin
    let v := vec3.sub p d.cen
    let d2 := dot v v
    (decide (d2 ≤ d.radius * d.radius), res.2)
  else
    (false, res.2)

/-- The member `disk::bounding_box`. -/
def bounding_box (d : disk) (_time0 _time1 : ℚ) (_output_box : aabb) : Bool × aabb :=
  if d.base.normal.x = 1 then
    (true, ⟨vec3.sub d.cen ⟨slab, d.radius, d.radius⟩,
            vec3.add d.cen ⟨slab, d.radius, d.radius⟩⟩)
  else if d.base.normal.y = 1 then
    (true, ⟨vec3.sub d.cen ⟨d.radius, slab, d.radius⟩,
            vec3.add d.cen ⟨d.radius, slab, d.radius⟩⟩)
  else
    (true, ⟨vec3.sub d.cen ⟨d.radius, d.radius, slab⟩,
            vec3.sub d.cen ⟨d.radius, d.radius, slab⟩⟩)

end disk

/-! ## Axis-aligned rectangles -/

/-- The class `xy_rect`. -/
structure xy_rect where
  mp : material
  x0 : ℚ
  x1 : ℚ
  y0 : ℚ
  y1 : ℚ
  k : ℚ
deriving DecidableEq, Repr

namespace xy_rect

/-- The member `xy_rect::hit`. -/
def hit (s : xy_rect) (r : ray) (t_min t_max : ℚ) (rec : hit_record) : Bool × hit_record :=
  let t := (s.k - r.origin.z) / r.direction.z
  if t < t_min ∨ t > t_max then (false, rec)
  else
    let x := r.origin.x + t * r.direction.x
    let y := r.origin.y + t * r.direction.y
    if x < s.x0 ∨ x > s.x1 ∨ y < s.y0 ∨ y > s.y1 then (false, rec)
    else
      let rec1 := { rec with u := (x - s.x0) / (s.x1 - s.x0) }
      let rec2 := { rec1 with v := (y - s.y0) / (s.y1 - s.y0) }
      let rec3 := { rec2 with t := t }
      let rec4 := rec3.set_face_normal r ⟨0, 0, 1⟩
      let rec5 := { rec4 with mat_ptr := s.mp }
      (true, { rec5 with p := r.at t })

/-- The member `xy_rect::bounding_box`. -/
def bounding_box (s : xy_rect) (_time0 _time1 : ℚ) (_output_box : aabb) : Bool × aabb :=
  (true, ⟨⟨s.x0, s.y0, s.k - eps⟩, ⟨s.x1, s.y1, s.k + eps⟩⟩)

end xy_rect

/-- The class `xz_rect`. -/
structure xz_rect where
  mp : material
  x0 : ℚ
  x1 : ℚ
  z0 : ℚ
  z1 : ℚ
  k : ℚ
deriving DecidableEq, Repr

namespace xz_rect

/-- The member `xz_rect::hit`. -/
def hit (s : xz_rect) (r : ray) (t_min t_max : ℚ) (rec : hit_record) : Bool × hit_record :=
  let t := (s.k - r.origin.y) / r.direction.y
  if t < t_min ∨ t > t_max then (false, rec)
  else
    let x := r.origin.x + t * r.direction.x
    let z := r.origin.z + t * r.direction.z
    if x < s.x0 ∨ x > s.x1 ∨ z < s.z0 ∨ z > s.z1 then (false, rec)
    else
      let rec1 := { rec with u := (x - s.x0) / (s.x1 - s.x0) }
      let rec2 := { rec1 with v := (z - s.z0) / (s.z1 - s.z0) }
      let rec3 := { rec2 with t := t }
      let rec4 := rec3.set_face_normal r ⟨0, 1, 0⟩
      let rec5 := { rec4 with mat_ptr := s.mp }
      (true, { rec5 with p := r.at t })

/-- The member `xz_rect::bounding_box`: the corners are `point3(x0, z0, k - .0001f)` and
`point3(x1, z1, k + .0001f)`. -/
def bounding_box (s : xz_rect) (_time0 _time1 : ℚ) (_output_box : aabb) : Bool × aabb :=
  (true, ⟨⟨s.x0, s.z0, s.k - eps⟩, ⟨s.x1, s.z1, s.k + eps⟩⟩)

end xz_rect

/-- The class `yz_rect`. -/
structure yz_rect where
  mp : material
  y0 : ℚ
  y1 : ℚ
  z0 : ℚ
  z1 : ℚ
  k : ℚ
deriving DecidableEq, Repr

namespace yz_rect

/-- The member `yz_rect::hit`. -/
def hit (s : yz_rect) (r : ray) (t_min t_max : ℚ) (rec : hit_record) : Bool × hit_record :=
  let t := (s.k - r.origin.x) / r.direction.x
  if t < t_min ∨ t > t_max then (false, rec)
  else
    let y := r.origin.y + t * r.direction.y
    let z := r.origin.z + t * r.direction.z
    if y < s.y0 ∨ y > s.y1 ∨ z < s.z0 ∨ z > s.z1 then (false, rec)
    else
      let rec1 := { rec with u := (y - s.y0) / (s.y1 - s.y0) }
      let rec2 := { rec1 with v := (z - s.z0) / (s.z1 - s.z0) }
      let rec3 := { rec2 with t := t }
      let rec4 := rec3.set_face_normal r ⟨1, 0, 0⟩
      let rec5 := { rec4 with mat_ptr := s.mp }
      (true, { rec5 with p := r.at t })

/-- The member `yz_rect::bounding_box`: the corners are `point3(y0, z0, k - .0001f)` and
`point3(y1, z1, k + .0001f)`. -/
def bounding_box (s : yz_rect) (_time0 _time1 : ℚ) (_output_box : aabb) : Bool × aabb :=
  (true, ⟨⟨s.y0, s.z0, s.k - eps⟩, ⟨s.y1, s.z1, s.k + eps⟩⟩)

end yz_rect

/-! ## The rectangles over floats with special values

The exact embedding above has no value for a quotient by zero.  This section embeds the
three rectangle `hit` functions a second time over `xfloat`, which adds the special
values of IEEE 754 (NaN, the two infinities, negative zero) to the exact rationals and
gives the arithmetic and the comparisons their IEEE 754 results on them.  Finite
results stay exact: rounding, overflow and underflow are not represented.
-/

/-- A float with its special values: NaN, `+∞`, `-∞`, `-0`, and the other finite values as
exact rationals (`fin 0` is `+0`). -/
inductive xfloat where
  | nan
  | pinf
  | ninf
  | nzero
  | fin (q : ℚ)
deriving DecidableEq, Repr

namespace xfloat

/-- Whether the value is NaN. -/
def isNan : xfloat → Bool
  | nan => true
  | _ => false

/-- Whether the value is `+∞` or `-∞`. -/
def isInf : xfloat → Bool
  | pinf => true
  | ninf => true
  | _ => false

/-- Whether the value is `+0` or `-0`. -/
def isZero : xfloat → Bool
  | nzero => true
  | fin q => decide (q = 0)
  | _ => false

/-- Whether the value is neither NaN nor infinite. -/
def isFinite : xfloat → Bool
  | nzero => true
  | fin _ => true
  | _ => false

/-- The sign bit (false for NaN, which has no use for it here). -/
def isNeg : xfloat → Bool
  | ninf => true
  | nzero => true
  | fin q => decide (q < 0)
  | _ => false

/-- The rational value of a finite float (`0` for the others). -/
def val : xfloat → ℚ
  | fin q => q
  | _ => 0

/-- The zero with the given sign bit. -/
def zero (negative : Bool) : xfloat := if negative then nzero else fin 0

/-- The infinity with the given sign bit. -/
def inf (negative : Bool) : xfloat := if negative then ninf else pinf

/-- Unary minus: flips the sign bit. -/
def neg : xfloat → xfloat
  | nan => nan
  | pinf => ninf
  | ninf => pinf
  | nzero => fin 0
  | fin q => if q = 0 then nzero else fin (-q)

/-- Sum: `∞ + (-∞)` is NaN, `(-0) + (-0)` is `-0`, every other zero sum is `+0`. -/
def add (a b : xfloat) : xfloat :=
  if a.isNan || b.isNan then nan
  else if a.isInf && b.isInf then (if a.isNeg = b.isNeg then a else nan)
  else if a.isInf then a
  else if b.isInf then b
  else if a.isZero && b.isZero then zero (a.isNeg && b.isNeg)
  else fin (a.val + b.val)

/-- Difference: `a - b` is `a + (-b)`. -/
def sub (a b : xfloat) : xfloat := add a (neg b)

/-- Product: `∞ * 0` is NaN, the sign of an infinite or zero product is the exclusive or
of the sign bits. -/
def mul (a b : xfloat) : xfloat :=
  if a.isNan || b.isNan then nan
  else if (a.isInf && b.isZero) || (a.isZero && b.isInf) then nan
  else if a.isInf || b.isInf then inf (xor a.isNeg b.isNeg)
  else if a.isZero || b.isZero then zero (xor a.isNeg b.isNeg)
  else fin (a.val * b.val)

/-- Quotient: `0 / 0` and `∞ / ∞` are NaN, a non-zero value over zero is an infinity, the
sign of an infinite or zero quotient is the exclusive or of the sign bits. -/
def div (a b : xfloat) : xfloat :=
  if a.isNan || b.isNan then nan
  else if (a.isInf && b.isInf) || (a.isZero && b.isZero) then nan
  else if a.isInf || b.isZero then inf (xor a.isNeg b.isNeg)
  else if b.isInf || a.isZero then zero (xor a.isNeg b.isNeg)
  else fin (a.val / b.val)

/-- The comparison `a < b`: false when an operand is NaN, `-0` and `+0` compare equal. -/
def lt (a b : xfloat) : Bool :=
  if a.isNan || b.isNan then false
  else if a = pinf || b = ninf then false
  else if a = ninf || b = pinf then true
  else decide (a.val < b.val)

/-- The comparison `a ≤ b`: false when an operand is NaN. -/
def le (a b : xfloat) : Bool :=
  if a.isNan || b.isNan then false
  else if a = ninf || b = pinf then true
  else if a = pinf || b = ninf then false
  else decide (a.val ≤ b.val)

end xfloat

namespace ieee

/-- The type `vec3` over `xfloat`. -/
structure vec3 where
  x : xfloat
  y : xfloat
  z : xfloat
deriving DecidableEq, Repr

/-- Componentwise sum over `xfloat`. -/
def vec3.add (a b : vec3) : vec3 :=
  ⟨xfloat.add a.x b.x, xfloat.add a.y b.y, xfloat.add a.z b.z⟩

/-- Unary minus over `xfloat`. -/
def vec3.neg (a : vec3) : vec3 := ⟨xfloat.neg a.x, xfloat.neg a.y, xfloat.neg a.z⟩

/-- Scaling over `xfloat`. -/
def vec3.smul (t : xfloat) (a : vec3) : vec3 :=
  ⟨xfloat.mul t a.x, xfloat.mul t a.y, xfloat.mul t a.z⟩

/-- Dot product over `xfloat`, summed from the left. -/
def dot (a b : vec3) : xfloat :=
  xfloat.add (xfloat.add (xfloat.mul a.x b.x) (xfloat.mul a.y b.y)) (xfloat.mul a.z b.z)

/-- The type `ray` over `xfloat`. -/
structure ray where
  orig : vec3
  dir : vec3
  tm : xfloat
deriving DecidableEq, Repr

/-- Accessor `origin()`. -/
def ray.origin (r : ray) : vec3 := r.orig

/-- Accessor `direction()`. -/
def ray.direction (r : ray) : vec3 := r.dir

/-- Parametric evaluation `at(t) = origin + t * direction` over `xfloat`. -/
def ray.«at» (r : ray) (t : xfloat) : vec3 := vec3.add r.orig (vec3.smul t r.dir)

/-- The record `hit_record` over `xfloat`. -/
structure hit_record where
  p : vec3
  normal : vec3
  mat_ptr : material
  t : xfloat
  u : xfloat
  v : xfloat
  front_face : Bool
deriving DecidableEq, Repr

/-- Modelled from the spec: `hit_record::set_face_normal` over `xfloat`, the outward normal
flipped when `dot(outward_normal, ray.direction) > 0`. -/
def hit_record.set_face_normal (rec : hit_record) (r : ray) (outward_normal : vec3) :
    hit_record :=
  if xfloat.lt (.fin 0) (dot outward_normal r.direction) then
    { rec with front_face := false, normal := vec3.neg outward_normal }
  else
    { rec with front_face := true, normal := outward_normal }

/-- The class `xy_rect` over `xfloat`. -/
structure xy_rect where
  mp : material
  x0 : xfloat
  x1 : xfloat
  y0 : xfloat
  y1 : xfloat
  k : xfloat
deriving DecidableEq, Repr

/-- The member `xy_rect::hit` over `xfloat`: `a > b` is `b < a`, and every comparison
with a NaN operand is false. -/
def xy_rect.hit (s : xy_rect) (r : ray) (t_min t_max : xfloat) (rec : hit_record) :
    Bool × hit_record :=
  let t := xfloat.div (xfloat.sub s.k r.origin.z) r.direction.z
  if xfloat.lt t t_min || xfloat.lt t_max t then (false, rec)
  else
    let x := xfloat.add r.origin.x (xfloat.mul t r.direction.x)
    let y := xfloat.add r.origin.y (xfloat.mul t r.direction.y)
    if xfloat.lt x s.x0 || xfloat.lt s.x1 x || xfloat.lt y s.y0 || xfloat.lt s.y1 y then
      (false, rec)
    else
      let rec1 := { rec with u := xfloat.div (xfloat.sub x s.x0) (xfloat.sub s.x1 s.x0) }
      let rec2 := { rec1 with v := xfloat.div (xfloat.sub y s.y0) (xfloat.sub s.y1 s.y0) }
      let rec3 := { rec2 with t := t }
      let rec4 := rec3.set_face_normal r ⟨.fin 0, .fin 0, .fin 1⟩
      let rec5 := { rec4 with mat_ptr := s.mp }
      (true, { rec5 with p := r.at t })

/-- The class `xz_rect` over `xfloat`. -/
structure xz_rect where
  mp : material
  x0 : xfloat
  x1 : xfloat
  z0 : xfloat
  z1 : xfloat
  k : xfloat
deriving DecidableEq, Repr

/-- The member `xz_rect::hit` over `xfloat`: `a > b` is `b < a`, and every comparison
with a NaN operand is false. -/
def xz_rect.hit (s : xz_rect) (r : ray) (t_min t_max : xfloat) (rec : hit_record) :
    Bool × hit_record :=
  let t := xfloat.div (xfloat.sub s.k r.origin.y) r.direction.y
  if xfloat.lt t t_min || xfloat.lt t_max t then (false, rec)
  else
    let x := xfloat.add r.origin.x (xfloat.mul t r.direction.x)
    let z := xfloat.add r.origin.z (xfloat.mul t r.direction.z)
    if xfloat.lt x s.x0 || xfloat.lt s.x1 x || xfloat.lt z s.z0 || xfloat.lt s.z1 z then
      (false, rec)
    else
      let rec1 := { rec with u := xfloat.div (xfloat.sub x s.x0) (xfloat.sub s.x1 s.x0) }
      let rec2 := { rec1 with v := xfloat.div (xfloat.sub z s.z0) (xfloat.sub s.z1 s.z0) }
      let rec3 := { rec2 with t := t }
      let rec4 := rec3.set_face_normal r ⟨.fin 0, .fin 1, .fin 0⟩
      let rec5 := { rec4 with mat_ptr := s.mp }
      (true, { rec5 with p := r.at t })

/-- The class `yz_rect` over `xfloat`. -/
structure yz_rect where
  mp : material
  y0 : xfloat
  y1 : xfloat
  z0 : xfloat
  z1 : xfloat
  k : xfloat
deriving DecidableEq, Repr

/-- The member `yz_rect::hit` over `xfloat`: `a > b` is `b < a`, and every comparison
with a NaN operand is false. -/
def yz_rect.hit (s : yz_rect) (r : ray) (t_min t_max : xfloat) (rec : hit_record) :
    Bool × hit_record :=
  let t := xfloat.div (xfloat.sub s.k r.origin.x) r.direction.x
  if xfloat.lt t t_min || xfloat.lt t_max t then (false, rec)
  else
    let y := xfloat.add r.origin.y (xfloat.mul t r.direction.y)
    let z := xfloat.add r.origin.z (xfloat.mul t r.direction.z)
    if xfloat.lt y s.y0 || xfloat.lt s.y1 y || xfloat.lt z s.z0 || xfloat.lt s.z1 z then
      (false, rec)
    else
      let rec1 := { rec with u := xfloat.div (xfloat.sub y s.y0) (xfloat.sub s.y1 s.y0) }
      let rec2 := { rec1 with v := xfloat.div (xfloat.sub z s.z0) (xfloat.sub s.z1 s.z0) }
      let rec3 := { rec2 with t := t }
      let rec4 := rec3.set_face_normal r ⟨.fin 1, .fin 0, .fin 0⟩
      let rec5 := { rec4 with mat_ptr := s.mp }
      (true, { rec5 with p := r.at t })

/-- An exact vector as a vector of finite floats. -/
def vec3.ofExact (a : Hittable2D.vec3) : vec3 := ⟨.fin a.x, .fin a.y, .fin a.z⟩

/-- An exact ray as a ray of finite floats. -/
def ray.ofExact (r : Hittable2D.ray) : ray :=
  ⟨vec3.ofExact r.orig, vec3.ofExact r.dir, .fin r.tm⟩

/-- An exact `xy_rect` as one with finite float members. -/
def xy_rect.ofExact (s : Hittable2D.xy_rect) : xy_rect :=
  ⟨s.mp, .fin s.x0, .fin s.x1, .fin s.y0, .fin s.y1, .fin s.k⟩

/-- An exact `xz_rect` as one with finite float members. -/
def xz_rect.ofExact (s : Hittable2D.xz_rect) : xz_rect :=
  ⟨s.mp, .fin s.x0, .fin s.x1, .fin s.z0, .fin s.z1, .fin s.k⟩

/-- An exact `yz_rect` as one with finite float members. -/
def yz_rect.ofExact (s : Hittable2D.yz_rect) : yz_rect :=
  ⟨s.mp, .fin s.y0, .fin s.y1, .fin s.z0, .fin s.z1, .fin s.k⟩

/-- A record over `xfloat` with distinctive field values. -/
def rec9 : hit_record :=
  ⟨⟨.fin 9, .fin 8, .fin 7⟩, ⟨.fin 6, .fin 5, .fin 4⟩, 3, .fin 2, .fin 1, .fin 11, true⟩

end ieee

/-! ## `plane` and `disk` with the binary32 roundings of the source

`plane::hit` and `disk::hit` compute in `float` where the source says so: the casts
`(float)dot(...)`, the quotient of two `float`s, the literal `.0001f`, the references
`float& u, float& v` and the product `radius * radius`.  This section embeds the two
functions a second time with a rounding to binary32 at each of these places.  The
`vec3` arithmetic, which the casts show to be wider than `float`, stays exact.
-/

/-- The binary32 value nearest to a real number (ties to even): a 24-bit significand in the
binade of `q`.  Overflow and subnormal numbers are not represented. -/
def round32 (q : ℚ) : ℚ :=
  if q = 0 then 0
  else
    let ulp : ℚ := 2 ^ (Int.log 2 |q| - 23)
    let n : ℤ := ⌊q / ulp⌋
    let r : ℚ := q / ulp - n
    if r < 1 / 2 then n * ulp
    else if 1 / 2 < r then (n + 1) * ulp
    else if n % 2 = 0 then n * ulp
    else (n + 1) * ulp

/-- The float literal `.0001f` as the binary32 value it denotes, `13743895 * 2^-37`
(`eps32_rounded` below: it is `round32 (1 / 10000)`). -/
def eps32 : ℚ := 13743895 / 137438953472

/-- A record with every field zeroed. -/
def rec0 : hit_record := ⟨⟨0, 0, 0⟩, ⟨0, 0, 0⟩, 0, 0, 0, 0, false⟩

/-- A record with distinctive field values. -/
def rec9 : hit_record := ⟨⟨9, 8, 7⟩, ⟨6, 5, 4⟩, 3, 2, 1, 11, true⟩

/-- A box with both corners at the origin. -/
def box0 : aabb := ⟨⟨0, 0, 0⟩, ⟨0, 0, 0⟩⟩

/-! ## The rectangles: what `hit` returns and writes -/

theorem xy_rect_hit_true_iff (s : xy_rect) (r : ray) (t_min t_max : ℚ) (rec : hit_record) :
    (s.hit r t_min t_max rec).1 = true ↔
      (t_min ≤ (s.k - r.origin.z) / r.direction.z ∧
        (s.k - r.origin.z) / r.direction.z ≤ t_max) ∧
      (s.x0 ≤ r.origin.x + (s.k - r.origin.z) / r.direction.z * r.direction.x ∧
        r.origin.x + (s.k - r.origin.z) / r.direction.z * r.direction.x ≤ s.x1) ∧
      (s.y0 ≤ r.origin.y + (s.k - r.origin.z) / r.direction.z * r.direction.y ∧
        r.origin.y + (s.k - r.origin.z) / r.direction.z * r.direction.y ≤ s.y1) := by
  unfold xy_rect.hit
  simp only []
  split_ifs with h1 h2
  · simp only [Bool.false_eq_true, false_iff]
    rintro ⟨⟨ha, hb⟩, -, -⟩
    rcases h1 with h | h <;> linarith
  · simp only [Bool.false_eq_true, false_iff]
    rintro ⟨-, ⟨ha, hb⟩, hc, hd⟩
    rcases h2 with h | h | h | h <;> linarith
  · simp only [not_or, not_lt] at h1 h2
    simp only [true_iff]
    exact ⟨h1, ⟨h2.1, h2.2.1⟩, h2.2.2.1, h2.2.2.2⟩

theorem xy_rect_hit_false_rec (s : xy_rect) (r : ray) (t_min t_max : ℚ) (rec : hit_record)
    (h : (s.hit r t_min t_max rec).1 = false) : (s.hit r t_min t_max rec).2 = rec := by
  unfold xy_rect.hit at h ⊢
  simp only [] at h ⊢
  split_ifs at h ⊢ with h1 h2 <;> simp_all

theorem xy_rect_hit_true_rec (s : xy_rect) (r : ray) (t_min t_max : ℚ) (rec : hit_record)
    (h : (s.hit r t_min t_max rec).1 = true) :
    (s.hit r t_min t_max rec).2 =
      { p := r.at ((s.k - r.origin.z) / r.direction.z)
        normal := (rec.set_face_normal r ⟨0, 0, 1⟩).normal
        mat_ptr := s.mp
        t := (s.k - r.origin.z) / r.direction.z
        u := (r.origin.x + (s.k - r.origin.z) / r.direction.z * r.direction.x - s.x0) /
          (s.x1 - s.x0)
        v := (r.origin.y + (s.k - r.origin.z) / r.direction.z * r.direction.y - s.y0) /
          (s.y1 - s.y0)
        front_face := (rec.set_face_normal r ⟨0, 0, 1⟩).front_face } := by
  unfold xy_rect.hit at h ⊢
  simp only [] at h ⊢
  split_ifs at h ⊢ with h1 h2
  simp only [hit_record.set_face_normal]
  split_ifs <;> rfl

theorem xz_rect_hit_true_iff (s : xz_rect) (r : ray) (t_min t_max : ℚ) (rec : hit_record) :
    (s.hit r t_min t_max rec).1 = true ↔
      (t_min ≤ (s.k - r.origin.y) / r.direction.y ∧
        (s.k - r.origin.y) / r.direction.y ≤ t_max) ∧
      (s.x0 ≤ r.origin.x + (s.k - r.origin.y) / r.direction.y * r.direction.x ∧
        r.origin.x + (s.k - r.origin.y) / r.direction.y * r.direction.x ≤ s.x1) ∧
      (s.z0 ≤ r.origin.z + (s.k - r.origin.y) / r.direction.y * r.direction.z ∧
        r.origin.z + (s.k - r.origin.y) / r.direction.y * r.direction.z ≤ s.z1) := by
  unfold xz_rect.hit
  simp only []
  split_ifs with h1 h2
  · simp only [Bool.false_eq_true, false_iff]
    rintro ⟨⟨ha, hb⟩, -, -⟩
    rcases h1 with h | h <;> linarith
  · simp only [Bool.false_eq_true, false_iff]
    rintro ⟨-, ⟨ha, hb⟩, hc, hd⟩
    rcases h2 with h | h | h | h <;> linarith
  · simp only [not_or, not_lt] at h1 h2
    simp only [true_iff]
    exact ⟨h1, ⟨h2.1, h2.2.1⟩, h2.2.2.1, h2.2.2.2⟩

theorem xz_rect_hit_false_rec (s : xz_rect) (r : ray) (t_min t_max : ℚ) (rec : hit_record)
    (h : (s.hit r t_min t_max rec).1 = false) : (s.hit r t_min t_max rec).2 = rec := by
  unfold xz_rect.hit at h ⊢
  simp only [] at h ⊢
  split_ifs at h ⊢ with h1 h2 <;> simp_all

theorem xz_rect_hit_true_rec (s : xz_rect) (r : ray) (t_min t_max : ℚ) (rec : hit_record)
    (h : (s.hit r t_min t_max rec).1 = true) :
    (s.hit r t_min t_max rec).2 =
      { p := r.at ((s.k - r.origin.y) / r.direction.y)
        normal := (rec.set_face_normal r ⟨0, 1, 0⟩).normal
        mat_ptr := s.mp
        t := (s.k - r.origin.y) / r.direction.y
        u := (r.origin.x + (s.k - r.origin.y) / r.direction.y * r.direction.x - s.x0) /
          (s.x1 - s.x0)
        v := (r.origin.z + (s.k - r.origin.y) / r.direction.y * r.direction.z - s.z0) /
          (s.z1 - s.z0)
        front_face := (rec.set_face_normal r ⟨0, 1, 0⟩).front_face } := by
  unfold xz_rect.hit at h ⊢
  simp only [] at h ⊢
  split_ifs at h ⊢ with h1 h2
  simp only [hit_record.set_face_normal]
  split_ifs <;> rfl

theorem yz_rect_hit_true_iff (s : yz_rect) (r : ray) (t_min t_max : ℚ) (rec : hit_record) :
    (s.hit r t_min t_max rec).1 = true ↔
      (t_min ≤ (s.k - r.origin.x) / r.direction.x ∧
        (s.k - r.origin.x) / r.direction.x ≤ t_max) ∧
      (s.y0 ≤ r.origin.y + (s.k - r.origin.x) / r.direction.x * r.direction.y ∧
        r.origin.y + (s.k - r.origin.x) / r.direction.x * r.direction.y ≤ s.y1) ∧
      (s.z0 ≤ r.origin.z + (s.k - r.origin.x) / r.direction.x * r.direction.z ∧
        r.origin.z + (s.k - r.origin.x) / r.direction.x * r.direction.z ≤ s.z1) := by
  unfold yz_rect.hit
  simp only []
  split_ifs with h1 h2
  · simp only [Bool.false_eq_true, false_iff]
    rintro ⟨⟨ha, hb⟩, -, -⟩
    rcases h1 with h | h <;> linarith
  · simp only [Bool.false_eq_true, false_iff]
    rintro ⟨-, ⟨ha, hb⟩, hc, hd⟩
    rcases h2 with h | h | h | h <;> linarith
  · simp only [not_or, not_lt] at h1 h2
    simp only [true_iff]
    exact ⟨h1, ⟨h2.1, h2.2.1⟩, h2.2.2.1, h2.2.2.2⟩

theorem yz_rect_hit_false_rec (s : yz_rect) (r : ray) (t_min t_max : ℚ) (rec : hit_record)
    (h : (s.hit r t_min t_max rec).1 = false) : (s.hit r t_min t_max rec).2 = rec := by
  unfold yz_rect.hit at h ⊢
  simp only [] at h ⊢
  split_ifs at h ⊢ with h1 h2 <;> simp_all

theorem yz_rect_hit_true_rec (s : yz_rect) (r : ray) (t_min t_max : ℚ) (rec : hit_record)
    (h : (s.hit r t_min t_max rec).1 = true) :
    (s.hit r t_min t_max rec).2 =
      { p := r.at ((s.k - r.origin.x) / r.direction.x)
        normal := (rec.set_face_normal r ⟨1, 0, 0⟩).normal
        mat_ptr := s.mp
        t := (s.k - r.origin.x) / r.direction.x
        u := (r.origin.y + (s.k - r.origin.x) / r.direction.x * r.direction.y - s.y0) /
          (s.y1 - s.y0)
        v := (r.origin.z + (s.k - r.origin.x) / r.direction.x * r.direction.z - s.z0) /
          (s.z1 - s.z0)
        front_face := (rec.set_face_normal r ⟨1, 0, 0⟩).front_face } := by
  unfold yz_rect.hit at h ⊢
  simp only [] at h ⊢
  split_ifs at h ⊢ with h1 h2
  simp only [hit_record.set_face_normal]
  split_ifs <;> rfl

/-! ## C1: the rectangles hit exactly the rays that cross them in range -/

/-- C1.  For each of `xy_rect`, `xz_rect`, `yz_rect`, every ray whose direction component
along the fixed axis is non-zero, every interval and every incoming record: with
`t = (k - origin_axis) / direction_axis` and `c0`, `c1` the in-plane coordinates of
`origin + t * direction`, `hit` returns true exactly when `t_min ≤ t ≤ t_max`,
`lo0 ≤ c0 ≤ hi0` and `lo1 ≤ c1 ≤ hi1`; and when it returns true the record holds
`t`, `u = (c0 - lo0) / (hi0 - lo0)`, `v = (c1 - lo1) / (hi1 - lo1)`,
`p = origin + t * direction` and the material of the rectangle. -/
theorem rect_hit_iff_and_record :
    (∀ (s : xy_rect) (r : ray) (t_min t_max : ℚ) (rec : hit_record),
      r.direction.z ≠ 0 →
      ∀ t c0 c1 : ℚ,
        t = (s.k - r.origin.z) / r.direction.z →
        c0 = r.origin.x + t * r.direction.x →
        c1 = r.origin.y + t * r.direction.y →
        ((s.hit r t_min t_max rec).1 = true ↔
          (t_min ≤ t ∧ t ≤ t_max) ∧ (s.x0 ≤ c0 ∧ c0 ≤ s.x1) ∧ (s.y0 ≤ c1 ∧ c1 ≤ s.y1)) ∧
        ((s.hit r t_min t_max rec).1 = true →
          (s.hit r t_min t_max rec).2.t = t ∧
          (s.hit r t_min t_max rec).2.u = (c0 - s.x0) / (s.x1 - s.x0) ∧
          (s.hit r t_min t_max rec).2.v = (c1 - s.y0) / (s.y1 - s.y0) ∧
          (s.hit r t_min t_max rec).2.p = vec3.add r.origin (vec3.smul t r.direction) ∧
          (s.hit r t_min t_max rec).2.mat_ptr = s.mp)) ∧
    (∀ (s : xz_rect) (r : ray) (t_min t_max : ℚ) (rec : hit_record),
      r.direction.y ≠ 0 →
      ∀ t c0 c1 : ℚ,
        t = (s.k - r.origin.y) / r.direction.y →
        c0 = r.origin.x + t * r.direction.x →
        c1 = r.origin.z + t * r.direction.z →
        ((s.hit r t_min t_max rec).1 = true ↔
          (t_min ≤ t ∧ t ≤ t_max) ∧ (s.x0 ≤ c0 ∧ c0 ≤ s.x1) ∧ (s.z0 ≤ c1 ∧ c1 ≤ s.z1)) ∧
        ((s.hit r t_min t_max rec).1 = true →
          (s.hit r t_min t_max rec).2.t = t ∧
          (s.hit r t_min t_max rec).2.u = (c0 - s.x0) / (s.x1 - s.x0) ∧
          (s.hit r t_min t_max rec).2.v = (c1 - s.z0) / (s.z1 - s.z0) ∧
          (s.hit r t_min t_max rec).2.p = vec3.add r.origin (vec3.smul t r.direction) ∧
          (s.hit r t_min t_max rec).2.mat_ptr = s.mp)) ∧
    (∀ (s : yz_rect) (r : ray) (t_min t_max : ℚ) (rec : hit_record),
      r.direction.x ≠ 0 →
      ∀ t c0 c1 : ℚ,
        t = (s.k - r.origin.x) / r.direction.x →
        c0 = r.origin.y + t * r.direction.y →
        c1 = r.origin.z + t * r.direction.z →
        ((s.hit r t_min t_max rec).1 = true ↔
          (t_min ≤ t ∧ t ≤ t_max) ∧ (s.y0 ≤ c0 ∧ c0 ≤ s.y1) ∧ (s.z0 ≤ c1 ∧ c1 ≤ s.z1)) ∧
        ((s.hit r t_min t_max rec).1 = true →
          (s.hit r t_min t_max rec).2.t = t ∧
          (s.hit r t_min t_max rec).2.u = (c0 - s.y0) / (s.y1 - s.y0) ∧
          (s.hit r t_min t_max rec).2.v = (c1 - s.z0) / (s.z1 - s.z0) ∧
          (s.hit r t_min t_max rec).2.p = vec3.add r.origin (vec3.smul t r.direction) ∧
          (s.hit r t_min t_max rec).2.mat_ptr = s.mp)) := by
  refine ⟨?_, ?_, ?_⟩
  · intro s r t_min t_max rec _ t c0 c1 ht h0 h1
    subst ht h0 h1
    refine ⟨xy_rect_hit_true_iff s r t_min t_max rec, fun h => ?_⟩
    rw [xy_rect_hit_true_rec s r t_min t_max rec h]
    exact ⟨rfl, rfl, rfl, rfl, rfl⟩
  · intro s r t_min t_max rec _ t c0 c1 ht h0 h1
    subst ht h0 h1
    refine ⟨xz_rect_hit_true_iff s r t_min t_max rec, fun h => ?_⟩
    rw [xz_rect_hit_true_rec s r t_min t_max rec h]
    exact ⟨rfl, rfl, rfl, rfl, rfl⟩
  · intro s r t_min t_max rec _ t c0 c1 ht h0 h1
    subst ht h0 h1
    refine ⟨yz_rect_hit_true_iff s r t_min t_max rec, fun h => ?_⟩
    rw [yz_rect_hit_true_rec s r t_min t_max rec h]
    exact ⟨rfl, rfl, rfl, rfl, rfl⟩

/-- Instance of C1: one ray per variant that crosses the rectangle in range. -/
theorem rect_hit_iff_and_record_witness :
    ((ray.direction ⟨⟨0, 0, -5⟩, ⟨0, 0, 1⟩, 0⟩).z ≠ 0 ∧
      (xy_rect.hit ⟨7, -1, 1, -1, 1, 0⟩ ⟨⟨0, 0, -5⟩, ⟨0, 0, 1⟩, 0⟩ 0 100 rec0).1 = true ∧
      (xy_rect.hit ⟨7, -1, 1, -1, 1, 0⟩ ⟨⟨0, 0, -5⟩, ⟨0, 0, 1⟩, 0⟩ 0 100 rec0).2.t = 5) ∧
    ((ray.direction ⟨⟨1 / 2, 0, 5 / 2⟩, ⟨0, 1, 0⟩, 0⟩).y ≠ 0 ∧
      (xz_rect.hit ⟨7, 0, 1, 2, 3, 5⟩ ⟨⟨1 / 2, 0, 5 / 2⟩, ⟨0, 1, 0⟩, 0⟩ 0 100 rec0).1 = true ∧
      (xz_rect.hit ⟨7, 0, 1, 2, 3, 5⟩ ⟨⟨1 / 2, 0, 5 / 2⟩, ⟨0, 1, 0⟩, 0⟩ 0 100 rec0).2.t = 5) ∧
    ((ray.direction ⟨⟨-1, 1, 1⟩, ⟨2, 0, 0⟩, 0⟩).x ≠ 0 ∧
      (yz_rect.hit ⟨7, 0, 2, 0, 4, 1⟩ ⟨⟨-1, 1, 1⟩, ⟨2, 0, 0⟩, 0⟩ 0 100 rec0).1 = true ∧
      (yz_rect.hit ⟨7, 0, 2, 0, 4, 1⟩ ⟨⟨-1, 1, 1⟩, ⟨2, 0, 0⟩, 0⟩ 0 100 rec0).2.v = 1 / 4) := by
  have hz : (ray.direction ⟨⟨0, 0, -5⟩, ⟨0, 0, 1⟩, 0⟩).z ≠ 0 := by norm_num [ray.direction]
  have hy : (ray.direction ⟨⟨1 / 2, 0, 5 / 2⟩, ⟨0, 1, 0⟩, 0⟩).y ≠ 0 := by
    norm_num [ray.direction]
  have hx : (ray.direction ⟨⟨-1, 1, 1⟩, ⟨2, 0, 0⟩, 0⟩).x ≠ 0 := by norm_num [ray.direction]
  have a := rect_hit_iff_and_record.1 ⟨7, -1, 1, -1, 1, 0⟩ ⟨⟨0, 0, -5⟩, ⟨0, 0, 1⟩, 0⟩ 0 100
    rec0 hz 5 0 0 (by norm_num [ray.origin, ray.direction])
    (by norm_num [ray.origin, ray.direction]) (by norm_num [ray.origin, ray.direction])
  have b := rect_hit_iff_and_record.2.1 ⟨7, 0, 1, 2, 3, 5⟩ ⟨⟨1 / 2, 0, 5 / 2⟩, ⟨0, 1, 0⟩, 0⟩
    0 100 rec0 hy 5 (1 / 2) (5 / 2) (by norm_num [ray.origin, ray.direction])
    (by norm_num [ray.origin, ray.direction]) (by norm_num [ray.origin, ray.direction])
  have c := rect_hit_iff_and_record.2.2 ⟨7, 0, 2, 0, 4, 1⟩ ⟨⟨-1, 1, 1⟩, ⟨2, 0, 0⟩, 0⟩
    0 100 rec0 hx 1 1 1 (by norm_num [ray.origin, ray.direction])
    (by norm_num [ray.origin, ray.direction]) (by norm_num [ray.origin, ray.direction])
  have ta := a.1.2 (by norm_num)
  have tb := b.1.2 (by norm_num)
  have tc := c.1.2 (by norm_num)
  refine ⟨⟨hz, ta, (a.2 ta).1⟩, ⟨hy, tb, (b.2 tb).1⟩, ⟨hx, tc, ?_⟩⟩
  have hv := (c.2 tc).2.2.1
  rw [hv]
  norm_num

/-! ## C2, C3: the boxes of the rectangles -/

/-- C2.  What `bounding_box` writes for each rectangle variant.  For `xy_rect` the box is
`x ∈ [x0, x1]`, `y ∈ [y0, y1]`, `z ∈ [k - 0.0001, k + 0.0001]`.  For `xz_rect` and
`yz_rect` the padded extent is also written to the world `z` axis and the two declared
extents to the world `x` and `y` axes (corners `(lo0, lo1, k - 0.0001)` and
`(hi0, hi1, k + 0.0001)`): at `xz_rect(0, 1, 2, 3, k = 5)` the box has
`y ∈ [2, 3]` and `z ∈ [4.9999, 5.0001]`, not `y ∈ [4.9999, 5.0001]`, `z ∈ [2, 3]`;
at `yz_rect(0, 2, 0, 4, k = 1)` it has `x ∈ [0, 2]`, `y ∈ [0, 4]`,
`z ∈ [0.9999, 1.0001]`, not `x ∈ [0.9999, 1.0001]`, `y ∈ [0, 2]`, `z ∈ [0, 4]`. -/
theorem rect_bounding_box_axes :
    (∀ (s : xy_rect) (time0 time1 : ℚ) (b : aabb),
      s.bounding_box time0 time1 b =
        (true, ⟨⟨s.x0, s.y0, s.k - 1 / 10000⟩, ⟨s.x1, s.y1, s.k + 1 / 10000⟩⟩)) ∧
    (∀ (s : xz_rect) (time0 time1 : ℚ) (b : aabb),
      s.bounding_box time0 time1 b =
        (true, ⟨⟨s.x0, s.z0, s.k - 1 / 10000⟩, ⟨s.x1, s.z1, s.k + 1 / 10000⟩⟩)) ∧
    (∀ (s : yz_rect) (time0 time1 : ℚ) (b : aabb),
      s.bounding_box time0 time1 b =
        (true, ⟨⟨s.y0, s.z0, s.k - 1 / 10000⟩, ⟨s.y1, s.z1, s.k + 1 / 10000⟩⟩)) ∧
    (xz_rect.bounding_box ⟨7, 0, 1, 2, 3, 5⟩ 0 1 box0 =
        (true, ⟨⟨0, 2, 49999 / 10000⟩, ⟨1, 3, 50001 / 10000⟩⟩) ∧
      (xz_rect.bounding_box ⟨7, 0, 1, 2, 3, 5⟩ 0 1 box0).2 ≠
        ⟨⟨0, 5 - 1 / 10000, 2⟩, ⟨1, 5 + 1 / 10000, 3⟩⟩) ∧
    (yz_rect.bounding_box ⟨7, 0, 2, 0, 4, 1⟩ 0 1 box0 =
        (true, ⟨⟨0, 0, 9999 / 10000⟩, ⟨2, 4, 10001 / 10000⟩⟩) ∧
      (yz_rect.bounding_box ⟨7, 0, 2, 0, 4, 1⟩ 0 1 box0).2 ≠
        ⟨⟨1 - 1 / 10000, 0, 0⟩, ⟨1 + 1 / 10000, 2, 4⟩⟩) := by
  refine ⟨fun s _ _ _ => ?_, fun s _ _ _ => ?_, fun s _ _ _ => ?_, ⟨?_, ?_⟩, ⟨?_, ?_⟩⟩
  · simp [xy_rect.bounding_box, eps]
  · simp [xz_rect.bounding_box, eps]
  · simp [yz_rect.bounding_box, eps]
  · norm_num [xz_rect.bounding_box, eps]
  · norm_num [xz_rect.bounding_box, eps]
  · norm_num [yz_rect.bounding_box, eps]
  · norm_num [yz_rect.bounding_box, eps]

/-- C3.  The box of `xz_rect(0, 1, 2, 3, k = 5)` does not enclose a point that `hit`
reports on it: the ray from `(1/2, 0, 5/2)` along `(0, 1, 0)` hits at
`p = (1/2, 5, 5/2)`, while the box spans `y ∈ [2, 3]`, so `p.y = 5` lies above the
maximum corner. -/
theorem xz_rect_box_misses_hit_point :
    (xz_rect.hit ⟨7, 0, 1, 2, 3, 5⟩ ⟨⟨1 / 2, 0, 5 / 2⟩, ⟨0, 1, 0⟩, 0⟩ 0 100 rec0).1 = true ∧
    (xz_rect.hit ⟨7, 0, 1, 2, 3, 5⟩ ⟨⟨1 / 2, 0, 5 / 2⟩, ⟨0, 1, 0⟩, 0⟩ 0 100 rec0).2.p =
      ⟨1 / 2, 5, 5 / 2⟩ ∧
    (xz_rect.bounding_box ⟨7, 0, 1, 2, 3, 5⟩ 0 1 box0).1 = true ∧
    (xz_rect.bounding_box ⟨7, 0, 1, 2, 3, 5⟩ 0 1 box0).2.maximum.y = 3 ∧
    ¬ ((xz_rect.hit ⟨7, 0, 1, 2, 3, 5⟩ ⟨⟨1 / 2, 0, 5 / 2⟩, ⟨0, 1, 0⟩, 0⟩ 0 100 rec0).2.p.y ≤
      (xz_rect.bounding_box ⟨7, 0, 1, 2, 3, 5⟩ 0 1 box0).2.maximum.y) := by
  norm_num [xz_rect.hit, xz_rect.bounding_box, ray.origin, ray.direction, ray.at, vec3.add,
    vec3.smul, hit_record.set_face_normal, rec0, eps]

/-! ## C4, C5: what `plane::hit` writes -/

/-- C4.  `plane::hit` passes the stored normal to `get_plane_uv`, so on every call it writes
`u = normal.x` and `v = normal.z`.  For the plane through the origin with normal
`(0, 1, 0)` and the ray from `(3, 10, 4)` along `(0, -1, 0)` it returns true with
`p = (3, 0, 4)` and `u = 0`, `v = 0`, not `u = 3`, `v = 4`. -/
theorem plane_hit_uv_from_normal :
    (∀ (pl : plane) (r : ray) (t_min t_max : ℚ) (rec : hit_record) (t_uninit : ℚ),
      (pl.hit r t_min t_max rec t_uninit).2.u = pl.normal.x ∧
      (pl.hit r t_min t_max rec t_uninit).2.v = pl.normal.z) ∧
    ((plane.new ⟨0, 0, 0⟩ ⟨0, 1, 0⟩ 7).hit ⟨⟨3, 10, 4⟩, ⟨0, -1, 0⟩, 0⟩ (1 / 1000) 100
        rec0 0).1 = true ∧
    ((plane.new ⟨0, 0, 0⟩ ⟨0, 1, 0⟩ 7).hit ⟨⟨3, 10, 4⟩, ⟨0, -1, 0⟩, 0⟩ (1 / 1000) 100
        rec0 0).2.p = ⟨3, 0, 4⟩ ∧
    ((plane.new ⟨0, 0, 0⟩ ⟨0, 1, 0⟩ 7).hit ⟨⟨3, 10, 4⟩, ⟨0, -1, 0⟩, 0⟩ (1 / 1000) 100
        rec0 0).2.u = 0 ∧
    ((plane.new ⟨0, 0, 0⟩ ⟨0, 1, 0⟩ 7).hit ⟨⟨3, 10, 4⟩, ⟨0, -1, 0⟩, 0⟩ (1 / 1000) 100
        rec0 0).2.v = 0 := by
  refine ⟨fun pl r _ _ rec _ => ⟨rfl, rfl⟩, ?_, ?_, ?_, ?_⟩ <;>
    norm_num [plane.hit, plane.new, plane.get_plane_uv, dot, vec3.sub, vec3.add, vec3.smul,
      ray.origin, ray.direction, ray.at, rec0, eps]

/-- C5.  `plane::hit` and `disk::hit` never read `t_min` and `t_max`.  For the plane through
the origin with normal `(0, 1, 0)`, and for the disk of radius 1 on it, the ray from
`(0, 10, 0)` along `(0, -1, 0)` with the interval `[0.001, 1]` returns true with
`rec.t = 10`, which is above `t_max = 1`. -/
theorem plane_disk_hit_beyond_t_max :
    (((plane.new ⟨0, 0, 0⟩ ⟨0, 1, 0⟩ 7).hit ⟨⟨0, 10, 0⟩, ⟨0, -1, 0⟩, 0⟩ (1 / 1000) 1
        rec0 0).1 = true ∧
      ((plane.new ⟨0, 0, 0⟩ ⟨0, 1, 0⟩ 7).hit ⟨⟨0, 10, 0⟩, ⟨0, -1, 0⟩, 0⟩ (1 / 1000) 1
        rec0 0).2.t = 10) ∧
    (((disk.new ⟨0, 0, 0⟩ ⟨0, 1, 0⟩ 1 7 ⟨0, 0, 0⟩).hit ⟨⟨0, 10, 0⟩, ⟨0, -1, 0⟩, 0⟩ (1 / 1000) 1
        rec0 0).1 = true ∧
      ((disk.new ⟨0, 0, 0⟩ ⟨0, 1, 0⟩ 1 7 ⟨0, 0, 0⟩).hit ⟨⟨0, 10, 0⟩, ⟨0, -1, 0⟩, 0⟩ (1 / 1000) 1
        rec0 0).2.t = 10) := by
  refine ⟨⟨?_, ?_⟩, ?_, ?_⟩ <;>
    norm_num [disk.hit, disk.new, plane.hit, plane.new, plane.get_plane_uv, dot, vec3.sub,
      vec3.add, vec3.smul, ray.origin, ray.direction, ray.at, rec0, eps]

/-! ## C10: when `plane::hit` returns true -/

theorem plane_hit_true_iff (pl : plane) (r : ray) (t_min t_max : ℚ) (rec : hit_record)
    (t_uninit : ℚ) :
    (pl.hit r t_min t_max rec t_uninit).1 = true ↔
      |dot pl.normal r.direction| > eps ∧
      dot (vec3.sub pl.cen r.origin) pl.normal / dot pl.normal r.direction ≥ eps := by
  unfold plane.hit
  simp only []
  split_ifs with h1 h2
  · exact ⟨fun _ => ⟨h1, h2⟩, fun _ => rfl⟩
  · simp only [Bool.false_eq_true, false_iff]
    exact fun h => h2 h.2
  · simp only [Bool.false_eq_true, false_iff]
    exact fun h => h1 h.1

theorem plane_hit_true_t (pl : plane) (r : ray) (t_min t_max : ℚ) (rec : hit_record)
    (t_uninit : ℚ) (h : (pl.hit r t_min t_max rec t_uninit).1 = true) :
    (pl.hit r t_min t_max rec t_uninit).2.t =
      dot (vec3.sub pl.cen r.origin) pl.normal / dot pl.normal r.direction := by
  have h1 := ((plane_hit_true_iff pl r t_min t_max rec t_uninit).1 h).1
  unfold plane.hit
  simp only [if_pos h1]

/-- C10.  For the plane with center `c` and normal `n` and every ray, interval, incoming
record and initial content of the local `t`: `hit` returns true exactly when
`|dot(n, direction)| > 0.0001` and `dot(c - origin, n) / dot(n, direction) ≥ 0.0001`.
Hence a ray with `dot(n, direction) = 0` returns false, and so does a ray with
`dot(c - origin, n) / dot(n, direction) < 0.0001`. -/
theorem plane_hit_iff (c : point3) (n : vec3) (m : material) (r : ray) (t_min t_max : ℚ)
    (rec : hit_record) (t_uninit : ℚ) :
    (((plane.new c n m).hit r t_min t_max rec t_uninit).1 = true ↔
      |dot n r.direction| > 1 / 10000 ∧
      dot (vec3.sub c r.origin) n / dot n r.direction ≥ 1 / 10000) ∧
    (dot n r.direction = 0 → ((plane.new c n m).hit r t_min t_max rec t_uninit).1 = false) ∧
    (dot (vec3.sub c r.origin) n / dot n r.direction < 1 / 10000 →
      ((plane.new c n m).hit r t_min t_max rec t_uninit).1 = false) := by
  have key := plane_hit_true_iff (plane.new c n m) r t_min t_max rec t_uninit
  simp only [plane.new, eps] at key ⊢
  refine ⟨key, fun h0 => ?_, fun hlt => ?_⟩
  · rw [← Bool.not_eq_true, key, h0]
    norm_num
  · rw [← Bool.not_eq_true, key]
    exact fun h => absurd h.2 (not_le.mpr hlt)

/-- Instance of C10: a ray parallel to the plane `y = 0`, and a ray that leaves it. -/
theorem plane_hit_iff_witness :
    (dot ⟨0, 1, 0⟩ (ray.direction ⟨⟨0, 1, 0⟩, ⟨1, 0, 0⟩, 0⟩) = 0 ∧
      ((plane.new ⟨0, 0, 0⟩ ⟨0, 1, 0⟩ 7).hit ⟨⟨0, 1, 0⟩, ⟨1, 0, 0⟩, 0⟩ 0 100 rec0 0).1 = false) ∧
    (dot (vec3.sub ⟨0, 0, 0⟩ (ray.origin ⟨⟨0, 1, 0⟩, ⟨0, 1, 0⟩, 0⟩)) ⟨0, 1, 0⟩ /
        dot ⟨0, 1, 0⟩ (ray.direction ⟨⟨0, 1, 0⟩, ⟨0, 1, 0⟩, 0⟩) < 1 / 10000 ∧
      ((plane.new ⟨0, 0, 0⟩ ⟨0, 1, 0⟩ 7).hit ⟨⟨0, 1, 0⟩, ⟨0, 1, 0⟩, 0⟩ 0 100 rec0 0).1 = false) :=
  have h0 : dot ⟨0, 1, 0⟩ (ray.direction ⟨⟨0, 1, 0⟩, ⟨1, 0, 0⟩, 0⟩) = 0 := by
    norm_num [dot, ray.direction]
  have h1 : dot (vec3.sub ⟨0, 0, 0⟩ (ray.origin ⟨⟨0, 1, 0⟩, ⟨0, 1, 0⟩, 0⟩)) ⟨0, 1, 0⟩ /
      dot ⟨0, 1, 0⟩ (ray.direction ⟨⟨0, 1, 0⟩, ⟨0, 1, 0⟩, 0⟩) < 1 / 10000 := by
    norm_num [dot, vec3.sub, ray.origin, ray.direction]
  ⟨⟨h0, (plane_hit_iff ⟨0, 0, 0⟩ ⟨0, 1, 0⟩ 7 ⟨⟨0, 1, 0⟩, ⟨1, 0, 0⟩, 0⟩ 0 100 rec0 0).2.1 h0⟩,
    ⟨h1, (plane_hit_iff ⟨0, 0, 0⟩ ⟨0, 1, 0⟩ 7 ⟨⟨0, 1, 0⟩, ⟨0, 1, 0⟩, 0⟩ 0 100 rec0 0).2.2 h1⟩⟩

/-! ## C6, C7: the center that `disk` uses -/

theorem ray_smul_add_origin (r : ray) (t : ℚ) :
    vec3.add (vec3.smul t r.direction) r.origin = r.at t := by
  simp only [ray.at, ray.origin, ray.direction, vec3.add, vec3.smul, vec3.mk.injEq]
  exact ⟨add_comm _ _, add_comm _ _, add_comm _ _⟩

theorem disk_hit_true_iff (d : disk) (r : ray) (t_min t_max : ℚ) (rec : hit_record)
    (t_uninit : ℚ) :
    (d.hit r t_min t_max rec t_uninit).1 = true ↔
      (d.base.hit r t_min t_max rec t_uninit).1 = true ∧
      dot (vec3.sub (r.at (d.base.hit r t_min t_max rec t_uninit).2.t) d.cen)
          (vec3.sub (r.at (d.base.hit r t_min t_max rec t_uninit).2.t) d.cen) ≤
        d.radius * d.radius := by
  unfold disk.hit
  simp only [ray_smul_add_origin]
  split_ifs with h1
  · simp [h1]
  · simp [h1]

theorem disk_new_hit_true_iff (c : point3) (n : vec3) (rad : ℚ) (m : material)
    (dflt : point3) (r : ray) (t_min t_max : ℚ) (rec : hit_record) (t_uninit : ℚ) :
    ((disk.new c n rad m dflt).hit r t_min t_max rec t_uninit).1 = true ↔
      (|dot n r.direction| > 1 / 10000 ∧
        dot (vec3.sub c r.origin) n / dot n r.direction ≥ 1 / 10000) ∧
      dot (vec3.sub (r.at (dot (vec3.sub c r.origin) n / dot n r.direction)) dflt)
        (vec3.sub (r.at (dot (vec3.sub c r.origin) n / dot n r.direction)) dflt) ≤
          rad * rad := by
  rw [disk_hit_true_iff]
  constructor
  · rintro ⟨hp, hd⟩
    have ht := plane_hit_true_t _ r t_min t_max rec t_uninit hp
    rw [ht] at hd
    rw [plane_hit_true_iff] at hp
    simp only [disk.new, plane.new, eps] at hp hd
    exact ⟨hp, hd⟩
  · rintro ⟨hp, hd⟩
    have hp2 : ((disk.new c n rad m dflt).base.hit r t_min t_max rec t_uninit).1 = true := by
      rw [plane_hit_true_iff]
      simpa only [disk.new, plane.new, eps] using hp
    refine ⟨hp2, ?_⟩
    rw [plane_hit_true_t _ r t_min t_max rec t_uninit hp2]
    exact hd

theorem plane_hit_p (pl : plane) (r : ray) (t_min t_max : ℚ) (rec : hit_record)
    (t_uninit : ℚ) :
    (pl.hit r t_min t_max rec t_uninit).2.p = r.at (pl.hit r t_min t_max rec t_uninit).2.t :=
  rfl


theorem plane_hit_offset_center (dflt : point3) (t_min t_max : ℚ) (rec : hit_record) (t_uninit : ℚ) :
      ((plane.new (vec3.add dflt ⟨10, 0, 0⟩) ⟨0, 1, 0⟩ 7).hit
          ⟨vec3.add (vec3.add dflt ⟨10, 0, 0⟩) ⟨0, 1, 0⟩, ⟨0, -1, 0⟩, 0⟩
          t_min t_max rec t_uninit).1 = true := by
  rw [plane_hit_true_iff]
  norm_num [plane.new, dot, vec3.sub, vec3.add, ray.origin, ray.direction, eps]

theorem plane_hit_offset_center_p (dflt : point3) (t_min t_max : ℚ) (rec : hit_record) (t_uninit : ℚ) :
      ((plane.new (vec3.add dflt ⟨10, 0, 0⟩) ⟨0, 1, 0⟩ 7).hit
          ⟨vec3.add (vec3.add dflt ⟨10, 0, 0⟩) ⟨0, 1, 0⟩, ⟨0, -1, 0⟩, 0⟩
          t_min t_max rec t_uninit).2.p = vec3.add dflt ⟨10, 0, 0⟩ := by
  rw [plane_hit_p, plane_hit_true_t _ _ _ _ _ _ (plane_hit_offset_center dflt t_min t_max rec t_uninit)]
  norm_num [plane.new, dot, vec3.sub, vec3.add, vec3.smul, ray.origin, ray.direction,
      ray.at]

theorem disk_hit_offset_center_false (dflt : point3) (t_min t_max : ℚ) (rec : hit_record) (t_uninit : ℚ) :
      ((disk.new (vec3.add dflt ⟨10, 0, 0⟩) ⟨0, 1, 0⟩ 1 7 dflt).hit
          ⟨vec3.add (vec3.add dflt ⟨10, 0, 0⟩) ⟨0, 1, 0⟩, ⟨0, -1, 0⟩, 0⟩
          t_min t_max rec t_uninit).1 = false := by
  rw [← Bool.not_eq_true, disk_new_hit_true_iff]
  norm_num [dot, vec3.sub, vec3.add, vec3.smul, ray.origin, ray.direction, ray.at]

theorem disk_hit_center_ten_false :
    ((disk.new ⟨10, 0, 0⟩ ⟨0, 1, 0⟩ 1 7 ⟨0, 0, 0⟩).hit ⟨⟨10, 1, 0⟩, ⟨0, -1, 0⟩, 0⟩
        (1 / 1000) 100 rec0 0).1 = false := by
  rw [← Bool.not_eq_true, disk_new_hit_true_iff]
  norm_num [dot, vec3.sub, vec3.add, vec3.smul, ray.origin, ray.direction, ray.at]

/-- C6.  The test that `disk::hit` makes.  The member `disk::cen` that `hit` reads is the
one declared in `disk`, which the constructor leaves default-constructed (`dflt`), not
the center `c` handed to `plane`: for every default point, `hit` returns true exactly
when the plane through `c` is hit and `|p - dflt|² ≤ r²`.  So for the disk of radius 1
with normal `(0, 1, 0)` and center `c = dflt + (10, 0, 0)`, the ray from `c + (0, 1, 0)`
along `(0, -1, 0)` hits the plane at `t = 1` in `p = c`, where `|p - c|² = 0 ≤ 1`, and
`disk::hit` returns false. -/
theorem disk_hit_tests_default_center :
    (∀ (c : point3) (n : vec3) (rad : ℚ) (m : material) (dflt : point3) (r : ray)
        (t_min t_max : ℚ) (rec : hit_record) (t_uninit : ℚ),
      ((disk.new c n rad m dflt).hit r t_min t_max rec t_uninit).1 = true ↔
        (|dot n r.direction| > 1 / 10000 ∧
          dot (vec3.sub c r.origin) n / dot n r.direction ≥ 1 / 10000) ∧
        dot (vec3.sub (r.at (dot (vec3.sub c r.origin) n / dot n r.direction)) dflt)
          (vec3.sub (r.at (dot (vec3.sub c r.origin) n / dot n r.direction)) dflt) ≤
            rad * rad) ∧
    (∀ (dflt : point3) (t_min t_max : ℚ) (rec : hit_record) (t_uninit : ℚ),
      ((plane.new (vec3.add dflt ⟨10, 0, 0⟩) ⟨0, 1, 0⟩ 7).hit
          ⟨vec3.add (vec3.add dflt ⟨10, 0, 0⟩) ⟨0, 1, 0⟩, ⟨0, -1, 0⟩, 0⟩
          t_min t_max rec t_uninit).1 = true ∧
      ((plane.new (vec3.add dflt ⟨10, 0, 0⟩) ⟨0, 1, 0⟩ 7).hit
          ⟨vec3.add (vec3.add dflt ⟨10, 0, 0⟩) ⟨0, 1, 0⟩, ⟨0, -1, 0⟩, 0⟩
          t_min t_max rec t_uninit).2.p = vec3.add dflt ⟨10, 0, 0⟩ ∧
      ((disk.new (vec3.add dflt ⟨10, 0, 0⟩) ⟨0, 1, 0⟩ 1 7 dflt).hit
          ⟨vec3.add (vec3.add dflt ⟨10, 0, 0⟩) ⟨0, 1, 0⟩, ⟨0, -1, 0⟩, 0⟩
          t_min t_max rec t_uninit).1 = false) ∧
    ((disk.new ⟨10, 0, 0⟩ ⟨0, 1, 0⟩ 1 7 ⟨0, 0, 0⟩).hit ⟨⟨10, 1, 0⟩, ⟨0, -1, 0⟩, 0⟩
        (1 / 1000) 100 rec0 0).1 = false :=
  ⟨disk_new_hit_true_iff,
    fun dflt t_min t_max rec t_uninit =>
      ⟨plane_hit_offset_center dflt t_min t_max rec t_uninit,
        plane_hit_offset_center_p dflt t_min t_max rec t_uninit,
        disk_hit_offset_center_false dflt t_min t_max rec t_uninit⟩,
    disk_hit_center_ten_false⟩

/-- C7.  The box that `disk::bounding_box` writes.  It is built around the
default-constructed `disk::cen` (`dflt`), not around the center `c` of the constructor,
and in the last branch both corners are `cen - (r, r, 0.01)`.  For every disk with
normal `(0, 0, 1)` the two corners coincide, so they are never `c - (r, r, 0.01)` and
`c + (r, r, 0.01)`; for normal `(1, 0, 0)` and `(0, 1, 0)` the slab is centered on
`dflt`.  At `disk((0,0,0), (0,0,1), 1)` with a zero default point both corners
are `(-1, -1, -0.01)`. -/
theorem disk_bounding_box_corners :
    (∀ (c : point3) (rad : ℚ) (m : material) (dflt : point3) (time0 time1 : ℚ) (b : aabb),
      (disk.new c ⟨0, 0, 1⟩ rad m dflt).bounding_box time0 time1 b =
          (true, ⟨vec3.sub dflt ⟨rad, rad, 1 / 100⟩, vec3.sub dflt ⟨rad, rad, 1 / 100⟩⟩) ∧
      ¬ (((disk.new c ⟨0, 0, 1⟩ rad m dflt).bounding_box time0 time1 b).2.minimum =
            vec3.sub c ⟨rad, rad, 1 / 100⟩ ∧
          ((disk.new c ⟨0, 0, 1⟩ rad m dflt).bounding_box time0 time1 b).2.maximum =
            vec3.add c ⟨rad, rad, 1 / 100⟩)) ∧
    (∀ (c : point3) (rad : ℚ) (m : material) (dflt : point3) (time0 time1 : ℚ) (b : aabb),
      (disk.new c ⟨1, 0, 0⟩ rad m dflt).bounding_box time0 time1 b =
          (true, ⟨vec3.sub dflt ⟨1 / 100, rad, rad⟩, vec3.add dflt ⟨1 / 100, rad, rad⟩⟩) ∧
      (disk.new c ⟨0, 1, 0⟩ rad m dflt).bounding_box time0 time1 b =
          (true, ⟨vec3.sub dflt ⟨rad, 1 / 100, rad⟩, vec3.add dflt ⟨rad, 1 / 100, rad⟩⟩)) ∧
    (disk.new ⟨0, 0, 0⟩ ⟨0, 0, 1⟩ 1 7 ⟨0, 0, 0⟩).bounding_box 0 1 box0 =
      (true, ⟨⟨-1, -1, -(1 / 100)⟩, ⟨-1, -1, -(1 / 100)⟩⟩) := by
  refine ⟨fun c rad m dflt time0 time1 b => ⟨?_, ?_⟩,
    fun c rad m dflt time0 time1 b => ⟨?_, ?_⟩, ?_⟩
  · norm_num [disk.bounding_box, disk.new, plane.new, slab]
  · norm_num [disk.bounding_box, disk.new, plane.new, slab, vec3.sub, vec3.add]
    intro _ _ h3 _ _
    linarith
  · norm_num [disk.bounding_box, disk.new, plane.new, slab]
  · norm_num [disk.bounding_box, disk.new, plane.new, slab]
  · norm_num [disk.bounding_box, disk.new, plane.new, slab, vec3.sub]

/-! ## C8: a rectangle that is missed leaves the record alone -/

/-- C8.  For each of `xy_rect`, `xz_rect`, `yz_rect`, every ray whose direction component
along the fixed axis is non-zero, every interval and every incoming record: if the point
where the ray crosses the plane of the rectangle has an in-plane coordinate strictly
outside the bounds, `hit` returns false; and whenever `hit` returns false the record
after the call equals the record before it. -/
theorem rect_miss_keeps_record :
    (∀ (s : xy_rect) (r : ray) (t_min t_max : ℚ) (rec : hit_record),
      r.direction.z ≠ 0 →
      ∀ t c0 c1 : ℚ,
        t = (s.k - r.origin.z) / r.direction.z →
        c0 = r.origin.x + t * r.direction.x →
        c1 = r.origin.y + t * r.direction.y →
        ((c0 < s.x0 ∨ c0 > s.x1 ∨ c1 < s.y0 ∨ c1 > s.y1) →
          (s.hit r t_min t_max rec).1 = false) ∧
        ((s.hit r t_min t_max rec).1 = false → (s.hit r t_min t_max rec).2 = rec)) ∧
    (∀ (s : xz_rect) (r : ray) (t_min t_max : ℚ) (rec : hit_record),
      r.direction.y ≠ 0 →
      ∀ t c0 c1 : ℚ,
        t = (s.k - r.origin.y) / r.direction.y →
        c0 = r.origin.x + t * r.direction.x →
        c1 = r.origin.z + t * r.direction.z →
        ((c0 < s.x0 ∨ c0 > s.x1 ∨ c1 < s.z0 ∨ c1 > s.z1) →
          (s.hit r t_min t_max rec).1 = false) ∧
        ((s.hit r t_min t_max rec).1 = false → (s.hit r t_min t_max rec).2 = rec)) ∧
    (∀ (s : yz_rect) (r : ray) (t_min t_max : ℚ) (rec : hit_record),
      r.direction.x ≠ 0 →
      ∀ t c0 c1 : ℚ,
        t = (s.k - r.origin.x) / r.direction.x →
        c0 = r.origin.y + t * r.direction.y →
        c1 = r.origin.z + t * r.direction.z →
        ((c0 < s.y0 ∨ c0 > s.y1 ∨ c1 < s.z0 ∨ c1 > s.z1) →
          (s.hit r t_min t_max rec).1 = false) ∧
        ((s.hit r t_min t_max rec).1 = false → (s.hit r t_min t_max rec).2 = rec)) := by
  refine ⟨?_, ?_, ?_⟩
  · intro s r t_min t_max rec _ t c0 c1 ht h0 h1
    subst ht h0 h1
    refine ⟨fun hout => ?_, xy_rect_hit_false_rec s r t_min t_max rec⟩
    rw [← Bool.not_eq_true, xy_rect_hit_true_iff]
    rintro ⟨-, ⟨ha, hb⟩, hc, hd⟩
    rcases hout with h | h | h | h <;> linarith
  · intro s r t_min t_max rec _ t c0 c1 ht h0 h1
    subst ht h0 h1
    refine ⟨fun hout => ?_, xz_rect_hit_false_rec s r t_min t_max rec⟩
    rw [← Bool.not_eq_true, xz_rect_hit_true_iff]
    rintro ⟨-, ⟨ha, hb⟩, hc, hd⟩
    rcases hout with h | h | h | h <;> linarith
  · intro s r t_min t_max rec _ t c0 c1 ht h0 h1
    subst ht h0 h1
    refine ⟨fun hout => ?_, yz_rect_hit_false_rec s r t_min t_max rec⟩
    rw [← Bool.not_eq_true, yz_rect_hit_true_iff]
    rintro ⟨-, ⟨ha, hb⟩, hc, hd⟩
    rcases hout with h | h | h | h <;> linarith

/-- Instance of C8: one ray per variant that crosses the plane outside the rectangle. -/
theorem rect_miss_keeps_record_witness :
    ((ray.direction ⟨⟨5, 0, -5⟩, ⟨0, 0, 1⟩, 0⟩).z ≠ 0 ∧
      xy_rect.hit ⟨7, -1, 1, -1, 1, 0⟩ ⟨⟨5, 0, -5⟩, ⟨0, 0, 1⟩, 0⟩ 0 100 rec9 = (false, rec9)) ∧
    ((ray.direction ⟨⟨1 / 2, 0, 7⟩, ⟨0, 1, 0⟩, 0⟩).y ≠ 0 ∧
      xz_rect.hit ⟨7, 0, 1, 2, 3, 5⟩ ⟨⟨1 / 2, 0, 7⟩, ⟨0, 1, 0⟩, 0⟩ 0 100 rec9 = (false, rec9)) ∧
    ((ray.direction ⟨⟨-1, -3, 1⟩, ⟨2, 0, 0⟩, 0⟩).x ≠ 0 ∧
      yz_rect.hit ⟨7, 0, 2, 0, 4, 1⟩ ⟨⟨-1, -3, 1⟩, ⟨2, 0, 0⟩, 0⟩ 0 100 rec9 = (false, rec9)) := by
  have hz : (ray.direction ⟨⟨5, 0, -5⟩, ⟨0, 0, 1⟩, 0⟩).z ≠ 0 := by norm_num [ray.direction]
  have hy : (ray.direction ⟨⟨1 / 2, 0, 7⟩, ⟨0, 1, 0⟩, 0⟩).y ≠ 0 := by norm_num [ray.direction]
  have hx : (ray.direction ⟨⟨-1, -3, 1⟩, ⟨2, 0, 0⟩, 0⟩).x ≠ 0 := by norm_num [ray.direction]
  have a := rect_miss_keeps_record.1 ⟨7, -1, 1, -1, 1, 0⟩ ⟨⟨5, 0, -5⟩, ⟨0, 0, 1⟩, 0⟩ 0 100
    rec9 hz 5 5 0 (by norm_num [ray.origin, ray.direction])
    (by norm_num [ray.origin, ray.direction]) (by norm_num [ray.origin, ray.direction])
  have b := rect_miss_keeps_record.2.1 ⟨7, 0, 1, 2, 3, 5⟩ ⟨⟨1 / 2, 0, 7⟩, ⟨0, 1, 0⟩, 0⟩ 0 100
    rec9 hy 5 (1 / 2) 7 (by norm_num [ray.origin, ray.direction])
    (by norm_num [ray.origin, ray.direction]) (by norm_num [ray.origin, ray.direction])
  have c := rect_miss_keeps_record.2.2 ⟨7, 0, 2, 0, 4, 1⟩ ⟨⟨-1, -3, 1⟩, ⟨2, 0, 0⟩, 0⟩ 0 100
    rec9 hx 1 (-3) 1 (by norm_num [ray.origin, ray.direction])
    (by norm_num [ray.origin, ray.direction]) (by norm_num [ray.origin, ray.direction])
  have fa := a.1 (by norm_num)
  have fb := b.1 (by norm_num)
  have fc := c.1 (by norm_num)
  exact ⟨⟨hz, Prod.ext fa (a.2 fa)⟩, ⟨hy, Prod.ext fb (b.2 fb)⟩, ⟨hx, Prod.ext fc (c.2 fc)⟩⟩

/-! ## C9: the normal that a rectangle reports -/

/-- C9.  For each of `xy_rect`, `xz_rect`, `yz_rect` and every ray, interval and incoming
record on which `hit` returns true: the normal in the record satisfies
`dot(rec.normal, direction) ≤ 0`, it is the axis unit normal or its negation, and it is
the negation exactly when `dot(outward_normal, direction) > 0`. -/
theorem rect_normal_opposes_ray :
    (∀ (s : xy_rect) (r : ray) (t_min t_max : ℚ) (rec : hit_record),
      (s.hit r t_min t_max rec).1 = true →
      dot (s.hit r t_min t_max rec).2.normal r.direction ≤ 0 ∧
      ((s.hit r t_min t_max rec).2.normal = ⟨0, 0, 1⟩ ∨
        (s.hit r t_min t_max rec).2.normal = vec3.neg ⟨0, 0, 1⟩) ∧
      (dot ⟨0, 0, 1⟩ r.direction > 0 →
        (s.hit r t_min t_max rec).2.normal = vec3.neg ⟨0, 0, 1⟩) ∧
      (¬ dot ⟨0, 0, 1⟩ r.direction > 0 → (s.hit r t_min t_max rec).2.normal = ⟨0, 0, 1⟩)) ∧
    (∀ (s : xz_rect) (r : ray) (t_min t_max : ℚ) (rec : hit_record),
      (s.hit r t_min t_max rec).1 = true →
      dot (s.hit r t_min t_max rec).2.normal r.direction ≤ 0 ∧
      ((s.hit r t_min t_max rec).2.normal = ⟨0, 1, 0⟩ ∨
        (s.hit r t_min t_max rec).2.normal = vec3.neg ⟨0, 1, 0⟩) ∧
      (dot ⟨0, 1, 0⟩ r.direction > 0 →
        (s.hit r t_min t_max rec).2.normal = vec3.neg ⟨0, 1, 0⟩) ∧
      (¬ dot ⟨0, 1, 0⟩ r.direction > 0 → (s.hit r t_min t_max rec).2.normal = ⟨0, 1, 0⟩)) ∧
    (∀ (s : yz_rect) (r : ray) (t_min t_max : ℚ) (rec : hit_record),
      (s.hit r t_min t_max rec).1 = true →
      dot (s.hit r t_min t_max rec).2.normal r.direction ≤ 0 ∧
      ((s.hit r t_min t_max rec).2.normal = ⟨1, 0, 0⟩ ∨
        (s.hit r t_min t_max rec).2.normal = vec3.neg ⟨1, 0, 0⟩) ∧
      (dot ⟨1, 0, 0⟩ r.direction > 0 →
        (s.hit r t_min t_max rec).2.normal = vec3.neg ⟨1, 0, 0⟩) ∧
      (¬ dot ⟨1, 0, 0⟩ r.direction > 0 → (s.hit r t_min t_max rec).2.normal = ⟨1, 0, 0⟩)) := by
  refine ⟨?_, ?_, ?_⟩
  · intro s r t_min t_max rec h
    rw [xy_rect_hit_true_rec s r t_min t_max rec h]
    simp only [hit_record.set_face_normal]
    split_ifs with hd
    · refine ⟨?_, Or.inr rfl, fun _ => rfl, fun hn => absurd hd hn⟩
      simp only [dot, vec3.neg] at hd ⊢
      linarith
    · exact ⟨not_lt.mp hd, Or.inl rfl, fun hp => absurd hp hd, fun _ => rfl⟩
  · intro s r t_min t_max rec h
    rw [xz_rect_hit_true_rec s r t_min t_max rec h]
    simp only [hit_record.set_face_normal]
    split_ifs with hd
    · refine ⟨?_, Or.inr rfl, fun _ => rfl, fun hn => absurd hd hn⟩
      simp only [dot, vec3.neg] at hd ⊢
      linarith
    · exact ⟨not_lt.mp hd, Or.inl rfl, fun hp => absurd hp hd, fun _ => rfl⟩
  · intro s r t_min t_max rec h
    rw [yz_rect_hit_true_rec s r t_min t_max rec h]
    simp only [hit_record.set_face_normal]
    split_ifs with hd
    · refine ⟨?_, Or.inr rfl, fun _ => rfl, fun hn => absurd hd hn⟩
      simp only [dot, vec3.neg] at hd ⊢
      linarith
    · exact ⟨not_lt.mp hd, Or.inl rfl, fun hp => absurd hp hd, fun _ => rfl⟩

/-- Instance of C9: one hit per variant, each with the outward normal flipped. -/
theorem rect_normal_opposes_ray_witness :
    ((xy_rect.hit ⟨7, -1, 1, -1, 1, 0⟩ ⟨⟨0, 0, -5⟩, ⟨0, 0, 1⟩, 0⟩ 0 100 rec0).1 = true ∧
      (xy_rect.hit ⟨7, -1, 1, -1, 1, 0⟩ ⟨⟨0, 0, -5⟩, ⟨0, 0, 1⟩, 0⟩ 0 100 rec0).2.normal =
        vec3.neg ⟨0, 0, 1⟩) ∧
    ((xz_rect.hit ⟨7, 0, 1, 2, 3, 5⟩ ⟨⟨1 / 2, 0, 5 / 2⟩, ⟨0, 1, 0⟩, 0⟩ 0 100 rec0).1 = true ∧
      (xz_rect.hit ⟨7, 0, 1, 2, 3, 5⟩ ⟨⟨1 / 2, 0, 5 / 2⟩, ⟨0, 1, 0⟩, 0⟩ 0 100 rec0).2.normal =
        vec3.neg ⟨0, 1, 0⟩) ∧
    ((yz_rect.hit ⟨7, 0, 2, 0, 4, 1⟩ ⟨⟨-1, 1, 1⟩, ⟨2, 0, 0⟩, 0⟩ 0 100 rec0).1 = true ∧
      (yz_rect.hit ⟨7, 0, 2, 0, 4, 1⟩ ⟨⟨-1, 1, 1⟩, ⟨2, 0, 0⟩, 0⟩ 0 100 rec0).2.normal =
        vec3.neg ⟨1, 0, 0⟩) := by
  have ta : (xy_rect.hit ⟨7, -1, 1, -1, 1, 0⟩ ⟨⟨0, 0, -5⟩, ⟨0, 0, 1⟩, 0⟩ 0 100 rec0).1 =
      true := by
    rw [xy_rect_hit_true_iff]
    norm_num [ray.origin, ray.direction]
  have tb : (xz_rect.hit ⟨7, 0, 1, 2, 3, 5⟩ ⟨⟨1 / 2, 0, 5 / 2⟩, ⟨0, 1, 0⟩, 0⟩ 0 100 rec0).1 =
      true := by
    rw [xz_rect_hit_true_iff]
    norm_num [ray.origin, ray.direction]
  have tc : (yz_rect.hit ⟨7, 0, 2, 0, 4, 1⟩ ⟨⟨-1, 1, 1⟩, ⟨2, 0, 0⟩, 0⟩ 0 100 rec0).1 =
      true := by
    rw [yz_rect_hit_true_iff]
    norm_num [ray.origin, ray.direction]
  exact ⟨⟨ta, (rect_normal_opposes_ray.1 _ _ 0 100 rec0 ta).2.2.1
      (by norm_num [dot, ray.direction])⟩,
    ⟨tb, (rect_normal_opposes_ray.2.1 _ _ 0 100 rec0 tb).2.2.1
      (by norm_num [dot, ray.direction])⟩,
    ⟨tc, (rect_normal_opposes_ray.2.2 _ _ 0 100 rec0 tc).2.2.1
      (by norm_num [dot, ray.direction])⟩⟩

/-! ## C20: `disk::hit` on top of `plane::hit`, and the radius test over exact arithmetic -/

theorem disk_hit_rec (d : disk) (r : ray) (t_min t_max : ℚ) (rec : hit_record)
    (t_uninit : ℚ) :
    (d.hit r t_min t_max rec t_uninit).2 = (d.base.hit r t_min t_max rec t_uninit).2 := by
  unfold disk.hit
  simp only []
  split_ifs <;> rfl

/-- C20.  The record after `disk::hit` against the record after a call of `plane::hit` on
the plane `(c, n, m)`.  `disk::hit` adds no write of its own: when the local `t` of
`plane::hit` holds the same content in the call made by the disk and in the separate
call, the two records are equal.  That local is not initialised and is copied to
`rec.t` when `|dot(normal, direction)| ≤ 0.0001`: for the disk of radius 1 on the plane
`y = 0` and the ray from `(0, 1, 0)` along `(1, 0, 0)`, a disk call that finds `0` in it
and a plane call that finds `1` both return false and leave `rec.t = 0` and
`rec.t = 1`, so the records differ. -/
theorem disk_record_and_plane_record :
    (∀ (c : point3) (n : vec3) (rad : ℚ) (m : material) (dflt : point3) (r : ray)
        (t_min t_max : ℚ) (rec : hit_record) (t_uninit : ℚ),
      ((disk.new c n rad m dflt).hit r t_min t_max rec t_uninit).2 =
        ((plane.new c n m).hit r t_min t_max rec t_uninit).2) ∧
    (((disk.new ⟨0, 0, 0⟩ ⟨0, 1, 0⟩ 1 7 ⟨0, 0, 0⟩).hit ⟨⟨0, 1, 0⟩, ⟨1, 0, 0⟩, 0⟩ 0 100
        rec0 0).1 = false ∧
      ((plane.new ⟨0, 0, 0⟩ ⟨0, 1, 0⟩ 7).hit ⟨⟨0, 1, 0⟩, ⟨1, 0, 0⟩, 0⟩ 0 100 rec0 1).1 = false ∧
      ((disk.new ⟨0, 0, 0⟩ ⟨0, 1, 0⟩ 1 7 ⟨0, 0, 0⟩).hit ⟨⟨0, 1, 0⟩, ⟨1, 0, 0⟩, 0⟩ 0 100
        rec0 0).2.t = 0 ∧
      ((plane.new ⟨0, 0, 0⟩ ⟨0, 1, 0⟩ 7).hit ⟨⟨0, 1, 0⟩, ⟨1, 0, 0⟩, 0⟩ 0 100 rec0 1).2.t = 1 ∧
      ((disk.new ⟨0, 0, 0⟩ ⟨0, 1, 0⟩ 1 7 ⟨0, 0, 0⟩).hit ⟨⟨0, 1, 0⟩, ⟨1, 0, 0⟩, 0⟩ 0 100
        rec0 0).2 ≠
      ((plane.new ⟨0, 0, 0⟩ ⟨0, 1, 0⟩ 7).hit ⟨⟨0, 1, 0⟩, ⟨1, 0, 0⟩, 0⟩ 0 100 rec0 1).2) := by
  have f1 : ((disk.new ⟨0, 0, 0⟩ ⟨0, 1, 0⟩ 1 7 ⟨0, 0, 0⟩).hit ⟨⟨0, 1, 0⟩, ⟨1, 0, 0⟩, 0⟩ 0 100
      rec0 0).1 = false := by
    rw [← Bool.not_eq_true, disk_new_hit_true_iff]
    norm_num [dot, ray.direction]
  have f2 : ((plane.new ⟨0, 0, 0⟩ ⟨0, 1, 0⟩ 7).hit ⟨⟨0, 1, 0⟩, ⟨1, 0, 0⟩, 0⟩ 0 100
      rec0 1).1 = false := by
    rw [← Bool.not_eq_true, plane_hit_true_iff]
    norm_num [plane.new, dot, ray.direction, eps]
  have e0 : ((disk.new ⟨0, 0, 0⟩ ⟨0, 1, 0⟩ 1 7 ⟨0, 0, 0⟩).hit ⟨⟨0, 1, 0⟩, ⟨1, 0, 0⟩, 0⟩ 0 100
      rec0 0).2.t = 0 := by
    rw [disk_hit_rec]
    norm_num [disk.new, plane.hit, plane.new, dot, ray.direction, eps]
  have e1 : ((plane.new ⟨0, 0, 0⟩ ⟨0, 1, 0⟩ 7).hit ⟨⟨0, 1, 0⟩, ⟨1, 0, 0⟩, 0⟩ 0 100
      rec0 1).2.t = 1 := by
    norm_num [plane.hit, plane.new, dot, ray.direction, eps]
  refine ⟨fun c n rad m dflt r t_min t_max rec t_uninit =>
    disk_hit_rec _ r t_min t_max rec t_uninit, f1, f2, e0, e1, fun h => ?_⟩
  have h2 := congrArg (fun q => q.t) h
  simp only [e0, e1] at h2
  norm_num at h2

/-- Over exact arithmetic the radius test separates the two rays for every radius `R ≥ 0`:
for the disk with center `(0, 0, 0)`, normal `(0, 1, 0)` and radius `R`, with the
default-constructed `point3` held by `disk::cen` at the origin, the ray from
`(0, 10, 0)` along `(0, -1, 0)` gives `hit = true` with `rec.t = 10`, and the ray from
`(R + 0.01, 10, 0)` gives `hit = false`. -/
theorem disk_at_origin_hit_and_miss (R : ℚ) (hR : 0 ≤ R) (dflt : point3)
    (hd : dflt = ⟨0, 0, 0⟩) (m : material) (tm t_min t_max : ℚ) (rec : hit_record)
    (t_uninit : ℚ) :
    ((disk.new ⟨0, 0, 0⟩ ⟨0, 1, 0⟩ R m dflt).hit ⟨⟨0, 10, 0⟩, ⟨0, -1, 0⟩, tm⟩ t_min t_max
        rec t_uninit).1 = true ∧
    ((disk.new ⟨0, 0, 0⟩ ⟨0, 1, 0⟩ R m dflt).hit ⟨⟨0, 10, 0⟩, ⟨0, -1, 0⟩, tm⟩ t_min t_max
        rec t_uninit).2.t = 10 ∧
    ((disk.new ⟨0, 0, 0⟩ ⟨0, 1, 0⟩ R m dflt).hit ⟨⟨R + 1 / 100, 10, 0⟩, ⟨0, -1, 0⟩, tm⟩
        t_min t_max rec t_uninit).1 = false := by
  subst hd
  have h1 : ((disk.new ⟨0, 0, 0⟩ ⟨0, 1, 0⟩ R m ⟨0, 0, 0⟩).hit ⟨⟨0, 10, 0⟩, ⟨0, -1, 0⟩, tm⟩
      t_min t_max rec t_uninit).1 = true := by
    rw [disk_new_hit_true_iff]
    norm_num [dot, vec3.sub, vec3.add, vec3.smul, ray.origin, ray.direction, ray.at]
    exact mul_self_nonneg R
  refine ⟨h1, ?_, ?_⟩
  · have hp := (disk_hit_true_iff _ _ t_min t_max rec t_uninit).1 h1
    rw [disk_hit_rec, plane_hit_true_t _ _ t_min t_max rec t_uninit hp.1]
    norm_num [disk.new, plane.new, dot, vec3.sub, ray.origin, ray.direction]
  · rw [← Bool.not_eq_true, disk_new_hit_true_iff]
    norm_num [dot, vec3.sub, vec3.add, vec3.smul, ray.origin, ray.direction, ray.at]
    nlinarith

/-- The exact radius test at radius 2. -/
theorem disk_at_origin_hit_and_miss_witness :
    (0 : ℚ) ≤ 2 ∧
    ((disk.new ⟨0, 0, 0⟩ ⟨0, 1, 0⟩ 2 7 ⟨0, 0, 0⟩).hit ⟨⟨0, 10, 0⟩, ⟨0, -1, 0⟩, 0⟩ 0 100
        rec0 0).1 = true ∧
    ((disk.new ⟨0, 0, 0⟩ ⟨0, 1, 0⟩ 2 7 ⟨0, 0, 0⟩).hit ⟨⟨0, 10, 0⟩, ⟨0, -1, 0⟩, 0⟩ 0 100
        rec0 0).2.t = 10 ∧
    ((disk.new ⟨0, 0, 0⟩ ⟨0, 1, 0⟩ 2 7 ⟨0, 0, 0⟩).hit ⟨⟨2 + 1 / 100, 10, 0⟩, ⟨0, -1, 0⟩, 0⟩
        0 100 rec0 0).1 = false :=
  ⟨by norm_num, disk_at_origin_hit_and_miss 2 (by norm_num) ⟨0, 0, 0⟩ rfl 7 0 0 100 rec0 0⟩

/-! ## C12, C13: a ray aimed at the middle of a rectangle -/

/-- C12.  For each of `xy_rect`, `xz_rect`, `yz_rect` with `lo0 < hi0` and `lo1 < hi1`: a ray
whose origin has the in-plane coordinates `((lo0 + hi0) / 2, (lo1 + hi1) / 2)` and whose
direction is non-zero only along the fixed axis, with
`expected_t = (k - origin_axis) / direction_axis` and `t_min < expected_t < t_max`, gives
`hit = true` with `rec.u = rec.v = 1/2` and `rec.t = expected_t`. -/
theorem rect_center_hit :
    (∀ (s : xy_rect) (r : ray) (t_min t_max : ℚ) (rec : hit_record),
      s.x0 < s.x1 → s.y0 < s.y1 →
      r.origin.x = (s.x0 + s.x1) / 2 → r.origin.y = (s.y0 + s.y1) / 2 →
      r.direction.x = 0 → r.direction.y = 0 → r.direction.z ≠ 0 →
      t_min < (s.k - r.origin.z) / r.direction.z →
      (s.k - r.origin.z) / r.direction.z < t_max →
      (s.hit r t_min t_max rec).1 = true ∧
      (s.hit r t_min t_max rec).2.u = 1 / 2 ∧
      (s.hit r t_min t_max rec).2.v = 1 / 2 ∧
      (s.hit r t_min t_max rec).2.t = (s.k - r.origin.z) / r.direction.z) ∧
    (∀ (s : xz_rect) (r : ray) (t_min t_max : ℚ) (rec : hit_record),
      s.x0 < s.x1 → s.z0 < s.z1 →
      r.origin.x = (s.x0 + s.x1) / 2 → r.origin.z = (s.z0 + s.z1) / 2 →
      r.direction.x = 0 → r.direction.z = 0 → r.direction.y ≠ 0 →
      t_min < (s.k - r.origin.y) / r.direction.y →
      (s.k - r.origin.y) / r.direction.y < t_max →
      (s.hit r t_min t_max rec).1 = true ∧
      (s.hit r t_min t_max rec).2.u = 1 / 2 ∧
      (s.hit r t_min t_max rec).2.v = 1 / 2 ∧
      (s.hit r t_min t_max rec).2.t = (s.k - r.origin.y) / r.direction.y) ∧
    (∀ (s : yz_rect) (r : ray) (t_min t_max : ℚ) (rec : hit_record),
      s.y0 < s.y1 → s.z0 < s.z1 →
      r.origin.y = (s.y0 + s.y1) / 2 → r.origin.z = (s.z0 + s.z1) / 2 →
      r.direction.y = 0 → r.direction.z = 0 → r.direction.x ≠ 0 →
      t_min < (s.k - r.origin.x) / r.direction.x →
      (s.k - r.origin.x) / r.direction.x < t_max →
      (s.hit r t_min t_max rec).1 = true ∧
      (s.hit r t_min t_max rec).2.u = 1 / 2 ∧
      (s.hit r t_min t_max rec).2.v = 1 / 2 ∧
      (s.hit r t_min t_max rec).2.t = (s.k - r.origin.x) / r.direction.x) := by
  refine ⟨?_, ?_, ?_⟩
  · intro s r t_min t_max rec hA hB hoA hoB hdA hdB _ h1 h2
    have hA0 : s.x1 - s.x0 ≠ 0 := sub_ne_zero.mpr (ne_of_gt hA)
    have hB0 : s.y1 - s.y0 ≠ 0 := sub_ne_zero.mpr (ne_of_gt hB)
    have ht : (s.hit r t_min t_max rec).1 = true := by
      rw [xy_rect_hit_true_iff, hoA, hoB, hdA, hdB]
      simp only [mul_zero, add_zero]
      exact ⟨⟨h1.le, h2.le⟩, ⟨by linarith, by linarith⟩, by linarith, by linarith⟩
    rw [xy_rect_hit_true_rec s r t_min t_max rec ht]
    refine ⟨ht, ?_, ?_, rfl⟩
    · simp only [hoA, hdA, mul_zero, add_zero]
      field_simp
      ring
    · simp only [hoB, hdB, mul_zero, add_zero]
      field_simp
      ring
  · intro s r t_min t_max rec hA hB hoA hoB hdA hdB _ h1 h2
    have hA0 : s.x1 - s.x0 ≠ 0 := sub_ne_zero.mpr (ne_of_gt hA)
    have hB0 : s.z1 - s.z0 ≠ 0 := sub_ne_zero.mpr (ne_of_gt hB)
    have ht : (s.hit r t_min t_max rec).1 = true := by
      rw [xz_rect_hit_true_iff, hoA, hoB, hdA, hdB]
      simp only [mul_zero, add_zero]
      exact ⟨⟨h1.le, h2.le⟩, ⟨by linarith, by linarith⟩, by linarith, by linarith⟩
    rw [xz_rect_hit_true_rec s r t_min t_max rec ht]
    refine ⟨ht, ?_, ?_, rfl⟩
    · simp only [hoA, hdA, mul_zero, add_zero]
      field_simp
      ring
    · simp only [hoB, hdB, mul_zero, add_zero]
      field_simp
      ring
  · intro s r t_min t_max rec hA hB hoA hoB hdA hdB _ h1 h2
    have hA0 : s.y1 - s.y0 ≠ 0 := sub_ne_zero.mpr (ne_of_gt hA)
    have hB0 : s.z1 - s.z0 ≠ 0 := sub_ne_zero.mpr (ne_of_gt hB)
    have ht : (s.hit r t_min t_max rec).1 = true := by
      rw [yz_rect_hit_true_iff, hoA, hoB, hdA, hdB]
      simp only [mul_zero, add_zero]
      exact ⟨⟨h1.le, h2.le⟩, ⟨by linarith, by linarith⟩, by linarith, by linarith⟩
    rw [yz_rect_hit_true_rec s r t_min t_max rec ht]
    refine ⟨ht, ?_, ?_, rfl⟩
    · simp only [hoA, hdA, mul_zero, add_zero]
      field_simp
      ring
    · simp only [hoB, hdB, mul_zero, add_zero]
      field_simp
      ring

/-- Instance of C12: one centered ray per variant. -/
theorem rect_center_hit_witness :
    (xy_rect.hit ⟨7, -1, 3, 0, 4, 2⟩ ⟨⟨1, 2, -4⟩, ⟨0, 0, 3⟩, 0⟩ 0 100 rec9).2.u = 1 / 2 ∧
    (xz_rect.hit ⟨7, -1, 3, 0, 4, 2⟩ ⟨⟨1, -4, 2⟩, ⟨0, 3, 0⟩, 0⟩ 0 100 rec9).2.v = 1 / 2 ∧
    (yz_rect.hit ⟨7, -1, 3, 0, 4, 2⟩ ⟨⟨8, 1, 2⟩, ⟨-3, 0, 0⟩, 0⟩ 0 100 rec9).2.t = 2 := by
  have a := rect_center_hit.1 ⟨7, -1, 3, 0, 4, 2⟩ ⟨⟨1, 2, -4⟩, ⟨0, 0, 3⟩, 0⟩ 0 100 rec9
    (by norm_num) (by norm_num) (by norm_num [ray.origin]) (by norm_num [ray.origin])
    (by norm_num [ray.direction]) (by norm_num [ray.direction])
    (by norm_num [ray.direction]) (by norm_num [ray.origin, ray.direction])
    (by norm_num [ray.origin, ray.direction])
  have b := rect_center_hit.2.1 ⟨7, -1, 3, 0, 4, 2⟩ ⟨⟨1, -4, 2⟩, ⟨0, 3, 0⟩, 0⟩ 0 100 rec9
    (by norm_num) (by norm_num) (by norm_num [ray.origin]) (by norm_num [ray.origin])
    (by norm_num [ray.direction]) (by norm_num [ray.direction])
    (by norm_num [ray.direction]) (by norm_num [ray.origin, ray.direction])
    (by norm_num [ray.origin, ray.direction])
  have c := rect_center_hit.2.2 ⟨7, -1, 3, 0, 4, 2⟩ ⟨⟨8, 1, 2⟩, ⟨-3, 0, 0⟩, 0⟩ 0 100 rec9
    (by norm_num) (by norm_num) (by norm_num [ray.origin]) (by norm_num [ray.origin])
    (by norm_num [ray.direction]) (by norm_num [ray.direction])
    (by norm_num [ray.direction]) (by norm_num [ray.origin, ray.direction])
    (by norm_num [ray.origin, ray.direction])
  refine ⟨a.2.1, b.2.2.1, ?_⟩
  rw [c.2.2.2]
  norm_num [ray.origin, ray.direction]

/-- C13.  For `xy_rect(x0 = -1, x1 = 1, y0 = -1, y1 = 1, k = 0)`, the ray from `(0, 0, -5)`
along `(0, 0, 1)`, `t_min = 0` and `t_max = 100`: `hit` returns true and the record holds
`t = 5`, `u = 1/2`, `v = 1/2`, `p = (0, 0, 0)` and `normal = (0, 0, -1)`; the material is
the one of the rectangle. -/
theorem xy_rect_end_to_end (mat : material) (tm : ℚ) (rec : hit_record) :
    (xy_rect.hit ⟨mat, -1, 1, -1, 1, 0⟩ ⟨⟨0, 0, -5⟩, ⟨0, 0, 1⟩, tm⟩ 0 100 rec).1 = true ∧
    (xy_rect.hit ⟨mat, -1, 1, -1, 1, 0⟩ ⟨⟨0, 0, -5⟩, ⟨0, 0, 1⟩, tm⟩ 0 100 rec).2.t = 5 ∧
    (xy_rect.hit ⟨mat, -1, 1, -1, 1, 0⟩ ⟨⟨0, 0, -5⟩, ⟨0, 0, 1⟩, tm⟩ 0 100 rec).2.u = 1 / 2 ∧
    (xy_rect.hit ⟨mat, -1, 1, -1, 1, 0⟩ ⟨⟨0, 0, -5⟩, ⟨0, 0, 1⟩, tm⟩ 0 100 rec).2.v = 1 / 2 ∧
    (xy_rect.hit ⟨mat, -1, 1, -1, 1, 0⟩ ⟨⟨0, 0, -5⟩, ⟨0, 0, 1⟩, tm⟩ 0 100 rec).2.p =
      ⟨0, 0, 0⟩ ∧
    (xy_rect.hit ⟨mat, -1, 1, -1, 1, 0⟩ ⟨⟨0, 0, -5⟩, ⟨0, 0, 1⟩, tm⟩ 0 100 rec).2.normal =
      ⟨0, 0, -1⟩ ∧
    (xy_rect.hit ⟨mat, -1, 1, -1, 1, 0⟩ ⟨⟨0, 0, -5⟩, ⟨0, 0, 1⟩, tm⟩ 0 100 rec).2.mat_ptr =
      mat := by
  have ht : (xy_rect.hit ⟨mat, -1, 1, -1, 1, 0⟩ ⟨⟨0, 0, -5⟩, ⟨0, 0, 1⟩, tm⟩ 0 100 rec).1 =
      true := by
    rw [xy_rect_hit_true_iff]
    norm_num [ray.origin, ray.direction]
  rw [xy_rect_hit_true_rec _ _ _ _ _ ht]
  refine ⟨ht, ?_, ?_, ?_, ?_, ?_, rfl⟩ <;>
    norm_num [ray.origin, ray.direction, ray.at, vec3.add, vec3.smul, vec3.neg, dot,
      hit_record.set_face_normal]

/-! ## C17: the reported point lies on the rectangle -/

/-- C17.  For each of `xy_rect`, `xz_rect`, `yz_rect` and every ray with non-zero direction
component along the fixed axis on which `hit` returns true: the coordinate of `rec.p`
along the fixed axis equals `k`, and its two in-plane coordinates lie in `[lo0, hi0]`
and `[lo1, hi1]`. -/
theorem rect_hit_point_on_rect :
    (∀ (s : xy_rect) (r : ray) (t_min t_max : ℚ) (rec : hit_record),
      r.direction.z ≠ 0 →
      (s.hit r t_min t_max rec).1 = true →
      (s.hit r t_min t_max rec).2.p.z = s.k ∧
      (s.x0 ≤ (s.hit r t_min t_max rec).2.p.x ∧
        (s.hit r t_min t_max rec).2.p.x ≤ s.x1) ∧
      (s.y0 ≤ (s.hit r t_min t_max rec).2.p.y ∧
        (s.hit r t_min t_max rec).2.p.y ≤ s.y1)) ∧
    (∀ (s : xz_rect) (r : ray) (t_min t_max : ℚ) (rec : hit_record),
      r.direction.y ≠ 0 →
      (s.hit r t_min t_max rec).1 = true →
      (s.hit r t_min t_max rec).2.p.y = s.k ∧
      (s.x0 ≤ (s.hit r t_min t_max rec).2.p.x ∧
        (s.hit r t_min t_max rec).2.p.x ≤ s.x1) ∧
      (s.z0 ≤ (s.hit r t_min t_max rec).2.p.z ∧
        (s.hit r t_min t_max rec).2.p.z ≤ s.z1)) ∧
    (∀ (s : yz_rect) (r : ray) (t_min t_max : ℚ) (rec : hit_record),
      r.direction.x ≠ 0 →
      (s.hit r t_min t_max rec).1 = true →
      (s.hit r t_min t_max rec).2.p.x = s.k ∧
      (s.y0 ≤ (s.hit r t_min t_max rec).2.p.y ∧
        (s.hit r t_min t_max rec).2.p.y ≤ s.y1) ∧
      (s.z0 ≤ (s.hit r t_min t_max rec).2.p.z ∧
        (s.hit r t_min t_max rec).2.p.z ≤ s.z1)) := by
  refine ⟨?_, ?_, ?_⟩
  · intro s r t_min t_max rec hd ht
    have hb := (xy_rect_hit_true_iff s r t_min t_max rec).1 ht
    rw [xy_rect_hit_true_rec s r t_min t_max rec ht]
    simp only [ray.at, vec3.add, vec3.smul, ray.origin, ray.direction] at hb hd ⊢
    refine ⟨?_, hb.2.1, hb.2.2⟩
    field_simp
  · intro s r t_min t_max rec hd ht
    have hb := (xz_rect_hit_true_iff s r t_min t_max rec).1 ht
    rw [xz_rect_hit_true_rec s r t_min t_max rec ht]
    simp only [ray.at, vec3.add, vec3.smul, ray.origin, ray.direction] at hb hd ⊢
    refine ⟨?_, hb.2.1, hb.2.2⟩
    field_simp
  · intro s r t_min t_max rec hd ht
    have hb := (yz_rect_hit_true_iff s r t_min t_max rec).1 ht
    rw [yz_rect_hit_true_rec s r t_min t_max rec ht]
    simp only [ray.at, vec3.add, vec3.smul, ray.origin, ray.direction] at hb hd ⊢
    refine ⟨?_, hb.2.1, hb.2.2⟩
    field_simp

/-- Instance of C17: one slanted ray per variant. -/
theorem rect_hit_point_on_rect_witness :
    (xy_rect.hit ⟨7, -1, 3, 0, 4, 2⟩ ⟨⟨0, 0, -1⟩, ⟨1, 2, 3⟩, 0⟩ 0 100 rec9).2.p.z = 2 ∧
    (xz_rect.hit ⟨7, -1, 3, 0, 4, 2⟩ ⟨⟨0, -1, 0⟩, ⟨1, 3, 2⟩, 0⟩ 0 100 rec9).2.p.y = 2 ∧
    (yz_rect.hit ⟨7, -1, 3, 0, 4, 2⟩ ⟨⟨-1, 0, 0⟩, ⟨3, -1, 2⟩, 0⟩ 0 100 rec9).2.p.x = 2 := by
  refine ⟨(rect_hit_point_on_rect.1 _ _ 0 100 rec9 (by norm_num [ray.direction]) ?_).1,
    (rect_hit_point_on_rect.2.1 _ _ 0 100 rec9 (by norm_num [ray.direction]) ?_).1,
    (rect_hit_point_on_rect.2.2 _ _ 0 100 rec9 (by norm_num [ray.direction]) ?_).1⟩
  · rw [xy_rect_hit_true_iff]
    norm_num [ray.origin, ray.direction]
  · rw [xz_rect_hit_true_iff]
    norm_num [ray.origin, ray.direction]
  · rw [yz_rect_hit_true_iff]
    norm_num [ray.origin, ray.direction]

/-! ## C18: the point and the normal that `plane::hit` reports -/

/-- C18.  For the plane with center `c` and normal `n` and every ray on which `hit` returns
true: `dot(rec.p - c, n) = 0` with `rec.p = origin + rec.t * direction`, and
`rec.normal = n` (there is no front-face correction, so the sign of
`dot(n, direction)` plays no role). -/
theorem plane_hit_point_on_plane (c : point3) (n : vec3) (m : material) (r : ray)
    (t_min t_max : ℚ) (rec : hit_record) (t_uninit : ℚ)
    (h : ((plane.new c n m).hit r t_min t_max rec t_uninit).1 = true) :
    dot (vec3.sub ((plane.new c n m).hit r t_min t_max rec t_uninit).2.p c) n = 0 ∧
    ((plane.new c n m).hit r t_min t_max rec t_uninit).2.p =
      vec3.add r.origin
        (vec3.smul ((plane.new c n m).hit r t_min t_max rec t_uninit).2.t r.direction) ∧
    ((plane.new c n m).hit r t_min t_max rec t_uninit).2.normal = n := by
  refine ⟨?_, rfl, rfl⟩
  have hden : dot n r.direction ≠ 0 := by
    have h1 := ((plane_hit_true_iff _ r t_min t_max rec t_uninit).1 h).1
    simp only [plane.new, eps] at h1
    intro h0
    rw [h0] at h1
    norm_num at h1
  rw [plane_hit_p, plane_hit_true_t _ r t_min t_max rec t_uninit h]
  simp only [plane.new, ray.at, ray.origin, ray.direction, vec3.add, vec3.smul, vec3.sub,
    dot] at hden ⊢
  field_simp
  ring

/-- Instance of C18: the plane `y = 0` met from above and from below. -/
theorem plane_hit_point_on_plane_witness :
    (((plane.new ⟨0, 0, 0⟩ ⟨0, 1, 0⟩ 7).hit ⟨⟨3, 10, 4⟩, ⟨1, -1, 0⟩, 0⟩ 0 100 rec9 0).1 = true ∧
      ((plane.new ⟨0, 0, 0⟩ ⟨0, 1, 0⟩ 7).hit ⟨⟨3, 10, 4⟩, ⟨1, -1, 0⟩, 0⟩ 0 100
        rec9 0).2.normal = ⟨0, 1, 0⟩) ∧
    (((plane.new ⟨0, 0, 0⟩ ⟨0, 1, 0⟩ 7).hit ⟨⟨3, -10, 4⟩, ⟨1, 1, 0⟩, 0⟩ 0 100 rec9 0).1 = true ∧
      ((plane.new ⟨0, 0, 0⟩ ⟨0, 1, 0⟩ 7).hit ⟨⟨3, -10, 4⟩, ⟨1, 1, 0⟩, 0⟩ 0 100
        rec9 0).2.normal = ⟨0, 1, 0⟩) := by
  have h1 : ((plane.new ⟨0, 0, 0⟩ ⟨0, 1, 0⟩ 7).hit ⟨⟨3, 10, 4⟩, ⟨1, -1, 0⟩, 0⟩ 0 100
      rec9 0).1 = true := by
    rw [plane_hit_true_iff]
    norm_num [plane.new, dot, vec3.sub, ray.origin, ray.direction, eps]
  have h2 : ((plane.new ⟨0, 0, 0⟩ ⟨0, 1, 0⟩ 7).hit ⟨⟨3, -10, 4⟩, ⟨1, 1, 0⟩, 0⟩ 0 100
      rec9 0).1 = true := by
    rw [plane_hit_true_iff]
    norm_num [plane.new, dot, vec3.sub, ray.origin, ray.direction, eps]
  exact ⟨⟨h1, (plane_hit_point_on_plane _ _ _ _ _ _ _ _ h1).2.2⟩,
    ⟨h2, (plane_hit_point_on_plane _ _ _ _ _ _ _ _ h2).2.2⟩⟩

/-! ## C16: the last branch of `disk::bounding_box` -/

/-- C16.  For every disk whose stored normal has `x ≠ 1` and `y ≠ 1`: `bounding_box`
returns true and writes a box whose minimum and maximum corners are both
`cen - (radius, radius, 0.01)`, with `cen` the center member the disk stores, so the box
has zero extent on all three axes. -/
theorem disk_bounding_box_fallback (d : disk) (time0 time1 : ℚ) (b : aabb)
    (hx : d.base.normal.x ≠ 1) (hy : d.base.normal.y ≠ 1) :
    (d.bounding_box time0 time1 b).1 = true ∧
    (d.bounding_box time0 time1 b).2.minimum = vec3.sub d.cen ⟨d.radius, d.radius, 1 / 100⟩ ∧
    (d.bounding_box time0 time1 b).2.maximum = vec3.sub d.cen ⟨d.radius, d.radius, 1 / 100⟩ ∧
    (d.bounding_box time0 time1 b).2.maximum.x - (d.bounding_box time0 time1 b).2.minimum.x = 0 ∧
    (d.bounding_box time0 time1 b).2.maximum.y - (d.bounding_box time0 time1 b).2.minimum.y = 0 ∧
    (d.bounding_box time0 time1 b).2.maximum.z - (d.bounding_box time0 time1 b).2.minimum.z = 0 := by
  unfold disk.bounding_box
  rw [if_neg hx, if_neg hy]
  simp [slab]

/-- Instance of C16: a disk facing `+z` and a tilted disk of radius 2. -/
theorem disk_bounding_box_fallback_witness :
    ((disk.new ⟨5, 5, 5⟩ ⟨0, 0, 1⟩ 2 7 ⟨0, 0, 0⟩).bounding_box 0 1 box0).2.minimum =
      ((disk.new ⟨5, 5, 5⟩ ⟨0, 0, 1⟩ 2 7 ⟨0, 0, 0⟩).bounding_box 0 1 box0).2.maximum ∧
    ((disk.new ⟨5, 5, 5⟩ ⟨3 / 5, 4 / 5, 0⟩ 2 7 ⟨0, 0, 0⟩).bounding_box 0 1 box0).2.minimum =
      ((disk.new ⟨5, 5, 5⟩ ⟨3 / 5, 4 / 5, 0⟩ 2 7 ⟨0, 0, 0⟩).bounding_box 0 1 box0).2.maximum := by
  have a := disk_bounding_box_fallback (disk.new ⟨5, 5, 5⟩ ⟨0, 0, 1⟩ 2 7 ⟨0, 0, 0⟩) 0 1 box0
    (by norm_num [disk.new, plane.new]) (by norm_num [disk.new, plane.new])
  have b := disk_bounding_box_fallback (disk.new ⟨5, 5, 5⟩ ⟨3 / 5, 4 / 5, 0⟩ 2 7 ⟨0, 0, 0⟩)
    0 1 box0 (by norm_num [disk.new, plane.new]) (by norm_num [disk.new, plane.new])
  exact ⟨a.2.1.trans a.2.2.1.symm, b.2.1.trans b.2.2.1.symm⟩

/-! ## C15: calling `hit` twice -/

theorem xy_rect_hit_twice (s : xy_rect) (r : ray) (t_min t_max : ℚ) (rec : hit_record) :
    s.hit r t_min t_max (s.hit r t_min t_max rec).2 = s.hit r t_min t_max rec := by
  unfold xy_rect.hit
  simp only []
  split_ifs with h1 h2
  · rfl
  · rfl
  · simp only [hit_record.set_face_normal]
    split_ifs <;> rfl

theorem xz_rect_hit_twice (s : xz_rect) (r : ray) (t_min t_max : ℚ) (rec : hit_record) :
    s.hit r t_min t_max (s.hit r t_min t_max rec).2 = s.hit r t_min t_max rec := by
  unfold xz_rect.hit
  simp only []
  split_ifs with h1 h2
  · rfl
  · rfl
  · simp only [hit_record.set_face_normal]
    split_ifs <;> rfl

theorem yz_rect_hit_twice (s : yz_rect) (r : ray) (t_min t_max : ℚ) (rec : hit_record) :
    s.hit r t_min t_max (s.hit r t_min t_max rec).2 = s.hit r t_min t_max rec := by
  unfold yz_rect.hit
  simp only []
  split_ifs with h1 h2
  · rfl
  · rfl
  · simp only [hit_record.set_face_normal]
    split_ifs <;> rfl

theorem plane_hit_twice (pl : plane) (r : ray) (t_min t_max : ℚ) (rec : hit_record)
    (t_uninit : ℚ) :
    pl.hit r t_min t_max (pl.hit r t_min t_max rec t_uninit).2 t_uninit =
      pl.hit r t_min t_max rec t_uninit := rfl

theorem disk_hit_twice (d : disk) (r : ray) (t_min t_max : ℚ) (rec : hit_record)
    (t_uninit : ℚ) :
    d.hit r t_min t_max (d.hit r t_min t_max rec t_uninit).2 t_uninit =
      d.hit r t_min t_max rec t_uninit := by
  rw [disk_hit_rec]
  unfold disk.hit
  rw [plane_hit_twice]

/-- C15.  A second call of `hit` on the record of the first.  The rectangles return the same
boolean and the same record; so do `plane` and `disk` when the local `t` of
`plane::hit` holds the same content in both calls.  That local is not initialised and is
copied to `rec.t` when `|dot(normal, direction)| ≤ 0.0001`: for the plane `y = 0` and the
ray from `(0, 1, 0)` along `(1, 0, 0)`, a first call that finds `0` in it and a second
call that finds `1` leave `rec.t = 0` and then `rec.t = 1`. -/
theorem second_hit_on_first_record :
    (∀ (s : xy_rect) (r : ray) (t_min t_max : ℚ) (rec : hit_record),
      s.hit r t_min t_max (s.hit r t_min t_max rec).2 = s.hit r t_min t_max rec) ∧
    (∀ (s : xz_rect) (r : ray) (t_min t_max : ℚ) (rec : hit_record),
      s.hit r t_min t_max (s.hit r t_min t_max rec).2 = s.hit r t_min t_max rec) ∧
    (∀ (s : yz_rect) (r : ray) (t_min t_max : ℚ) (rec : hit_record),
      s.hit r t_min t_max (s.hit r t_min t_max rec).2 = s.hit r t_min t_max rec) ∧
    (∀ (pl : plane) (r : ray) (t_min t_max : ℚ) (rec : hit_record) (t_uninit : ℚ),
      pl.hit r t_min t_max (pl.hit r t_min t_max rec t_uninit).2 t_uninit =
        pl.hit r t_min t_max rec t_uninit) ∧
    (∀ (d : disk) (r : ray) (t_min t_max : ℚ) (rec : hit_record) (t_uninit : ℚ),
      d.hit r t_min t_max (d.hit r t_min t_max rec t_uninit).2 t_uninit =
        d.hit r t_min t_max rec t_uninit) ∧
    (((plane.new ⟨0, 0, 0⟩ ⟨0, 1, 0⟩ 7).hit ⟨⟨0, 1, 0⟩, ⟨1, 0, 0⟩, 0⟩ 0 100 rec0 0).2.t = 0 ∧
      ((plane.new ⟨0, 0, 0⟩ ⟨0, 1, 0⟩ 7).hit ⟨⟨0, 1, 0⟩, ⟨1, 0, 0⟩, 0⟩ 0 100
        ((plane.new ⟨0, 0, 0⟩ ⟨0, 1, 0⟩ 7).hit ⟨⟨0, 1, 0⟩, ⟨1, 0, 0⟩, 0⟩ 0 100
          rec0 0).2 1).2.t = 1 ∧
      (plane.new ⟨0, 0, 0⟩ ⟨0, 1, 0⟩ 7).hit ⟨⟨0, 1, 0⟩, ⟨1, 0, 0⟩, 0⟩ 0 100
        ((plane.new ⟨0, 0, 0⟩ ⟨0, 1, 0⟩ 7).hit ⟨⟨0, 1, 0⟩, ⟨1, 0, 0⟩, 0⟩ 0 100
          rec0 0).2 1 ≠
      (plane.new ⟨0, 0, 0⟩ ⟨0, 1, 0⟩ 7).hit ⟨⟨0, 1, 0⟩, ⟨1, 0, 0⟩, 0⟩ 0 100 rec0 0) := by
  have e0 : ((plane.new ⟨0, 0, 0⟩ ⟨0, 1, 0⟩ 7).hit ⟨⟨0, 1, 0⟩, ⟨1, 0, 0⟩, 0⟩ 0 100
      rec0 0).2.t = 0 := by
    norm_num [plane.hit, plane.new, dot, ray.direction, eps]
  have e1 : ((plane.new ⟨0, 0, 0⟩ ⟨0, 1, 0⟩ 7).hit ⟨⟨0, 1, 0⟩, ⟨1, 0, 0⟩, 0⟩ 0 100
      ((plane.new ⟨0, 0, 0⟩ ⟨0, 1, 0⟩ 7).hit ⟨⟨0, 1, 0⟩, ⟨1, 0, 0⟩, 0⟩ 0 100
        rec0 0).2 1).2.t = 1 := by
    norm_num [plane.hit, plane.new, dot, ray.direction, eps]
  refine ⟨xy_rect_hit_twice, xz_rect_hit_twice, yz_rect_hit_twice, plane_hit_twice,
    disk_hit_twice, e0, e1, fun h => ?_⟩
  have h2 := congrArg (fun q => q.2.t) h
  simp only [e0, e1] at h2
  norm_num at h2

/-! ## C14, C19: a direction component that is exactly zero -/

theorem xfloat_neg_isFinite (a : xfloat) : (xfloat.neg a).isFinite = a.isFinite := by
  cases a with
  | fin q => by_cases hq : q = 0 <;> simp [xfloat.neg, xfloat.isFinite, hq]
  | _ => rfl

theorem xfloat_neg_val (a : xfloat) : (xfloat.neg a).val = -a.val := by
  cases a with
  | fin q => by_cases hq : q = 0 <;> simp [xfloat.neg, xfloat.val, hq]
  | _ => simp [xfloat.neg, xfloat.val]

theorem xfloat_zero_isFinite (b : Bool) : (xfloat.zero b).isFinite = true := by
  cases b <;> rfl

theorem xfloat_zero_val (b : Bool) : (xfloat.zero b).val = 0 := by
  cases b <;> rfl

theorem xfloat_isZero_iff (a : xfloat) (ha : a.isFinite = true) :
    a.isZero = true ↔ a.val = 0 := by
  cases a <;> simp_all [xfloat.isFinite, xfloat.isZero, xfloat.val]

theorem xfloat_add_finite (a b : xfloat) (ha : a.isFinite = true) (hb : b.isFinite = true) :
    (xfloat.add a b).isFinite = true ∧ (xfloat.add a b).val = a.val + b.val := by
  have hna : a.isNan = false := by cases a <;> simp_all [xfloat.isFinite, xfloat.isNan]
  have hnb : b.isNan = false := by cases b <;> simp_all [xfloat.isFinite, xfloat.isNan]
  have hia : a.isInf = false := by cases a <;> simp_all [xfloat.isFinite, xfloat.isInf]
  have hib : b.isInf = false := by cases b <;> simp_all [xfloat.isFinite, xfloat.isInf]
  unfold xfloat.add
  simp only [hna, hnb, hia, hib, Bool.or_self, Bool.and_self, Bool.false_eq_true, if_false]
  by_cases hz : (a.isZero && b.isZero) = true
  · rw [if_pos hz]
    rw [Bool.and_eq_true] at hz
    rw [(xfloat_isZero_iff a ha).1 hz.1, (xfloat_isZero_iff b hb).1 hz.2]
    exact ⟨xfloat_zero_isFinite _, by rw [xfloat_zero_val]; norm_num⟩
  · rw [if_neg hz]
    exact ⟨rfl, rfl⟩

theorem xfloat_sub_finite (a b : xfloat) (ha : a.isFinite = true) (hb : b.isFinite = true) :
    (xfloat.sub a b).isFinite = true ∧ (xfloat.sub a b).val = a.val - b.val := by
  have h := xfloat_add_finite a (xfloat.neg b) ha (by rw [xfloat_neg_isFinite]; exact hb)
  rw [xfloat_neg_val] at h
  exact ⟨h.1, by rw [xfloat.sub, h.2]; ring⟩

theorem xfloat_eq_fin (a : xfloat) (ha : a.isFinite = true) (hv : a.val ≠ 0) :
    a = .fin a.val := by
  cases a <;> simp_all [xfloat.isFinite, xfloat.val]

theorem xfloat_sub_finite_ne (a b : xfloat) (ha : a.isFinite = true) (hb : b.isFinite = true)
    (hne : a.val ≠ b.val) : ∃ q : ℚ, q ≠ 0 ∧ xfloat.sub a b = .fin q := by
  have h := xfloat_sub_finite a b ha hb
  have hv : (xfloat.sub a b).val ≠ 0 := by
    rw [h.2]
    exact sub_ne_zero.mpr hne
  exact ⟨_, hv, xfloat_eq_fin _ h.1 hv⟩

theorem xfloat_div_zero (q : ℚ) (hq : q ≠ 0) (z : xfloat) (hz : z.isZero = true) :
    xfloat.div (.fin q) z = .pinf ∨ xfloat.div (.fin q) z = .ninf := by
  have hnz : z.isNan = false := by cases z <;> simp_all [xfloat.isZero, xfloat.isNan]
  have hiz : z.isInf = false := by cases z <;> simp_all [xfloat.isZero, xfloat.isInf]
  have hqn : (xfloat.fin q).isNan = false := rfl
  have hqi : (xfloat.fin q).isInf = false := rfl
  have hqz : (xfloat.fin q).isZero = false := by simp [xfloat.isZero, hq]
  unfold xfloat.div
  simp only [hnz, hiz, hqn, hqi, hqz, hz, Bool.or_self, Bool.and_self, Bool.false_and,
    Bool.or_true, Bool.false_eq_true, if_false, if_true]
  cases (xor (xfloat.fin q).isNeg z.isNeg)
  · exact Or.inl rfl
  · exact Or.inr rfl

theorem xfloat_lt_pinf (a : xfloat) (ha : a.isFinite = true) : xfloat.lt a .pinf = true := by
  cases a <;> simp_all [xfloat.isFinite, xfloat.lt, xfloat.isNan]

theorem xfloat_ninf_lt (a : xfloat) (ha : a.isFinite = true) : xfloat.lt .ninf a = true := by
  cases a <;> simp_all [xfloat.isFinite, xfloat.lt, xfloat.isNan]

theorem xfloat_add_mul_inf (o t z : xfloat) (ht : t = .pinf ∨ t = .ninf)
    (ho : o.isFinite = true) (hz : z.isFinite = true) (hnz : z.isZero = false) :
    xfloat.add o (xfloat.mul t z) = .pinf ∨ xfloat.add o (xfloat.mul t z) = .ninf := by
  have hno : o.isNan = false := by cases o <;> simp_all [xfloat.isFinite, xfloat.isNan]
  have hio : o.isInf = false := by cases o <;> simp_all [xfloat.isFinite, xfloat.isInf]
  have hnan : z.isNan = false := by cases z <;> simp_all [xfloat.isFinite, xfloat.isNan]
  have tn : t.isNan = false := by rcases ht with rfl | rfl <;> rfl
  have ti : t.isInf = true := by rcases ht with rfl | rfl <;> rfl
  have tz : t.isZero = false := by rcases ht with rfl | rfl <;> rfl
  have hm : xfloat.mul t z = .pinf ∨ xfloat.mul t z = .ninf := by
    unfold xfloat.mul
    simp only [tn, ti, tz, hnan, hnz, Bool.or_self, Bool.and_false, Bool.false_and,
      Bool.true_or, Bool.false_eq_true, if_false, if_true]
    cases (xor t.isNeg z.isNeg)
    · exact Or.inl rfl
    · exact Or.inr rfl
  have pn : xfloat.pinf.isNan = false := rfl
  have pi : xfloat.pinf.isInf = true := rfl
  have nn : xfloat.ninf.isNan = false := rfl
  have ni : xfloat.ninf.isInf = true := rfl
  unfold xfloat.add
  rcases hm with h | h
  · rw [h]
    simp only [pn, pi, hno, hio, Bool.or_self, Bool.false_and, Bool.false_eq_true,
      if_false, if_true]
    exact Or.inl trivial
  · rw [h]
    simp only [nn, ni, hno, hio, Bool.or_self, Bool.false_and, Bool.false_eq_true,
      if_false, if_true]
    exact Or.inr trivial

theorem xfloat_inf_out_of_bounds (x lo hi : xfloat) (hx : x = .pinf ∨ x = .ninf)
    (hlo : lo.isFinite = true) (hhi : hi.isFinite = true) :
    (xfloat.lt x lo || xfloat.lt hi x) = true := by
  rcases hx with rfl | rfl
  · rw [xfloat_lt_pinf hi hhi, Bool.or_true]
  · rw [xfloat_ninf_lt lo hlo, Bool.true_or]

/-- C14 (as amended).  For each of `xy_rect`, `xz_rect`, `yz_rect` over floats with special
values, and every ray whose direction component along the fixed axis is `+0` or `-0`
and whose origin is off the plane of the rectangle (the origin coordinate along that
axis and `k` finite and different, so `t` is `+∞` or `-∞`): `hit` returns false and
leaves the record as it was, for every `t_min` and `t_max` (`t_max = +∞` included) when
the bounds of the rectangle and the in-plane components of the origin and of the
direction are finite and one in-plane direction component is non-zero, and for every
`t_min > -∞` and `t_max < +∞` whatever the in-plane components are. -/
theorem rect_zero_direction_off_plane :
    (∀ (s : ieee.xy_rect) (r : ieee.ray) (t_min t_max : xfloat) (rec : ieee.hit_record),
      r.direction.z.isZero = true →
      s.k.isFinite = true → r.origin.z.isFinite = true → s.k.val ≠ r.origin.z.val →
      ((xfloat.lt .ninf t_min = true ∧ xfloat.lt t_max .pinf = true) ∨
        ((s.x0.isFinite = true ∧ s.x1.isFinite = true ∧
            s.y0.isFinite = true ∧ s.y1.isFinite = true) ∧
          (r.origin.x.isFinite = true ∧ r.origin.y.isFinite = true) ∧
          (r.direction.x.isFinite = true ∧ r.direction.y.isFinite = true) ∧
          (r.direction.x.isZero = false ∨ r.direction.y.isZero = false))) →
      s.hit r t_min t_max rec = (false, rec)) ∧
    (∀ (s : ieee.xz_rect) (r : ieee.ray) (t_min t_max : xfloat) (rec : ieee.hit_record),
      r.direction.y.isZero = true →
      s.k.isFinite = true → r.origin.y.isFinite = true → s.k.val ≠ r.origin.y.val →
      ((xfloat.lt .ninf t_min = true ∧ xfloat.lt t_max .pinf = true) ∨
        ((s.x0.isFinite = true ∧ s.x1.isFinite = true ∧
            s.z0.isFinite = true ∧ s.z1.isFinite = true) ∧
          (r.origin.x.isFinite = true ∧ r.origin.z.isFinite = true) ∧
          (r.direction.x.isFinite = true ∧ r.direction.z.isFinite = true) ∧
          (r.direction.x.isZero = false ∨ r.direction.z.isZero = false))) →
      s.hit r t_min t_max rec = (false, rec)) ∧
    (∀ (s : ieee.yz_rect) (r : ieee.ray) (t_min t_max : xfloat) (rec : ieee.hit_record),
      r.direction.x.isZero = true →
      s.k.isFinite = true → r.origin.x.isFinite = true → s.k.val ≠ r.origin.x.val →
      ((xfloat.lt .ninf t_min = true ∧ xfloat.lt t_max .pinf = true) ∨
        ((s.y0.isFinite = true ∧ s.y1.isFinite = true ∧
            s.z0.isFinite = true ∧ s.z1.isFinite = true) ∧
          (r.origin.y.isFinite = true ∧ r.origin.z.isFinite = true) ∧
          (r.direction.y.isFinite = true ∧ r.direction.z.isFinite = true) ∧
          (r.direction.y.isZero = false ∨ r.direction.z.isZero = false))) →
      s.hit r t_min t_max rec = (false, rec)) := by
  refine ⟨?_, ?_, ?_⟩
  · intro s r t_min t_max rec hz hk ho hne hcase
    obtain ⟨q, hq, hsub⟩ := xfloat_sub_finite_ne s.k r.origin.z hk ho hne
    have ht := xfloat_div_zero q hq r.direction.z hz
    unfold ieee.xy_rect.hit
    simp only [hsub]
    rcases hcase with ⟨h1, h2⟩ | ⟨⟨b1, b2, b3, b4⟩, ⟨o1, o2⟩, ⟨d1, d2⟩, hnz⟩
    · rcases ht with h | h
      · simp [h, h2]
      · simp [h, h1]
    · split_ifs with i1 i2
      · rfl
      · rfl
      · exfalso
        apply i2
        simp only [Bool.or_eq_true]
        rcases hnz with hn | hn
        · have hc := xfloat_inf_out_of_bounds _ s.x0 s.x1
            (xfloat_add_mul_inf r.origin.x _ r.direction.x ht o1 d1 hn) b1 b2
          rw [Bool.or_eq_true] at hc
          exact Or.inl (Or.inl hc)
        · have hc := xfloat_inf_out_of_bounds _ s.y0 s.y1
            (xfloat_add_mul_inf r.origin.y _ r.direction.y ht o2 d2 hn) b3 b4
          rw [Bool.or_eq_true] at hc
          rcases hc with hc | hc
          · exact Or.inl (Or.inr hc)
          · exact Or.inr hc
  · intro s r t_min t_max rec hz hk ho hne hcase
    obtain ⟨q, hq, hsub⟩ := xfloat_sub_finite_ne s.k r.origin.y hk ho hne
    have ht := xfloat_div_zero q hq r.direction.y hz
    unfold ieee.xz_rect.hit
    simp only [hsub]
    rcases hcase with ⟨h1, h2⟩ | ⟨⟨b1, b2, b3, b4⟩, ⟨o1, o2⟩, ⟨d1, d2⟩, hnz⟩
    · rcases ht with h | h
      · simp [h, h2]
      · simp [h, h1]
    · split_ifs with i1 i2
      · rfl
      · rfl
      · exfalso
        apply i2
        simp only [Bool.or_eq_true]
        rcases hnz with hn | hn
        · have hc := xfloat_inf_out_of_bounds _ s.x0 s.x1
            (xfloat_add_mul_inf r.origin.x _ r.direction.x ht o1 d1 hn) b1 b2
          rw [Bool.or_eq_true] at hc
          exact Or.inl (Or.inl hc)
        · have hc := xfloat_inf_out_of_bounds _ s.z0 s.z1
            (xfloat_add_mul_inf r.origin.z _ r.direction.z ht o2 d2 hn) b3 b4
          rw [Bool.or_eq_true] at hc
          rcases hc with hc | hc
          · exact Or.inl (Or.inr hc)
          · exact Or.inr hc
  · intro s r t_min t_max rec hz hk ho hne hcase
    obtain ⟨q, hq, hsub⟩ := xfloat_sub_finite_ne s.k r.origin.x hk ho hne
    have ht := xfloat_div_zero q hq r.direction.x hz
    unfold ieee.yz_rect.hit
    simp only [hsub]
    rcases hcase with ⟨h1, h2⟩ | ⟨⟨b1, b2, b3, b4⟩, ⟨o1, o2⟩, ⟨d1, d2⟩, hnz⟩
    · rcases ht with h | h
      · simp [h, h2]
      · simp [h, h1]
    · split_ifs with i1 i2
      · rfl
      · rfl
      · exfalso
        apply i2
        simp only [Bool.or_eq_true]
        rcases hnz with hn | hn
        · have hc := xfloat_inf_out_of_bounds _ s.y0 s.y1
            (xfloat_add_mul_inf r.origin.y _ r.direction.y ht o1 d1 hn) b1 b2
          rw [Bool.or_eq_true] at hc
          exact Or.inl (Or.inl hc)
        · have hc := xfloat_inf_out_of_bounds _ s.z0 s.z1
            (xfloat_add_mul_inf r.origin.z _ r.direction.z ht o2 d2 hn) b3 b4
          rw [Bool.or_eq_true] at hc
          rcases hc with hc | hc
          · exact Or.inl (Or.inr hc)
          · exact Or.inr hc

/-- Instance of C14 (as amended): per variant, a ray that runs parallel to the plane of the
rectangle, off the plane, with `t_max = +∞`; and for `xy_rect` a ray with direction
`(0, 0, -0)` under a finite interval. -/
theorem rect_zero_direction_off_plane_witness :
    ieee.xy_rect.hit ⟨7, .fin (-1), .fin 1, .fin (-1), .fin 1, .fin 0⟩
        ⟨⟨.fin 0, .fin 0, .fin (-5)⟩, ⟨.fin 1, .fin 0, .nzero⟩, .fin 0⟩ (.fin 0) .pinf
        ieee.rec9 = (false, ieee.rec9) ∧
    ieee.xz_rect.hit ⟨7, .fin (-1), .fin 1, .fin (-1), .fin 1, .fin 0⟩
        ⟨⟨.fin 0, .fin (-5), .fin 0⟩, ⟨.fin 0, .fin 0, .fin 1⟩, .fin 0⟩ (.fin 0) .pinf
        ieee.rec9 = (false, ieee.rec9) ∧
    ieee.yz_rect.hit ⟨7, .fin (-1), .fin 1, .fin (-1), .fin 1, .fin 0⟩
        ⟨⟨.fin (-5), .fin 0, .fin 0⟩, ⟨.fin 0, .fin 0, .fin 1⟩, .fin 0⟩ (.fin 0) .pinf
        ieee.rec9 = (false, ieee.rec9) ∧
    ieee.xy_rect.hit ⟨7, .fin (-1), .fin 1, .fin (-1), .fin 1, .fin 0⟩
        ⟨⟨.fin 0, .fin 0, .fin (-5)⟩, ⟨.fin 0, .fin 0, .nzero⟩, .fin 0⟩ (.fin 0) (.fin 100)
        ieee.rec9 = (false, ieee.rec9) :=
  ⟨rect_zero_direction_off_plane.1 _ _ _ _ _ rfl rfl rfl
      (by norm_num [xfloat.val, ieee.ray.origin])
      (Or.inr ⟨⟨rfl, rfl, rfl, rfl⟩, ⟨rfl, rfl⟩, ⟨rfl, rfl⟩,
        Or.inl (by simp [xfloat.isZero, ieee.ray.direction])⟩),
    rect_zero_direction_off_plane.2.1 _ _ _ _ _ (by simp [xfloat.isZero, ieee.ray.direction])
      rfl rfl (by norm_num [xfloat.val, ieee.ray.origin])
      (Or.inr ⟨⟨rfl, rfl, rfl, rfl⟩, ⟨rfl, rfl⟩, ⟨rfl, rfl⟩,
        Or.inr (by simp [xfloat.isZero, ieee.ray.direction])⟩),
    rect_zero_direction_off_plane.2.2 _ _ _ _ _ (by simp [xfloat.isZero, ieee.ray.direction])
      rfl rfl (by norm_num [xfloat.val, ieee.ray.origin])
      (Or.inr ⟨⟨rfl, rfl, rfl, rfl⟩, ⟨rfl, rfl⟩, ⟨rfl, rfl⟩,
        Or.inr (by simp [xfloat.isZero, ieee.ray.direction])⟩),
    rect_zero_direction_off_plane.1 _ _ _ _ _ rfl rfl rfl
      (by norm_num [xfloat.val, ieee.ray.origin]) (Or.inl ⟨rfl, rfl⟩)⟩

/-- C14 (as stated) fails.  For `xy_rect(-1, 1, -1, 1, k = 0)` the ray from `(0, 0, 0)`, which
lies in the plane of the rectangle, along `(1, 0, 0)` has `t = 0 / 0 = NaN`; with
`t_min = 0.001` and `t_max = 100` every comparison is false and `hit` returns true.  The
ray from `(0, 0, -5)` with direction `(0, 0, 0)` has `t = +∞`; with `t_max = +∞` the
in-plane coordinates are NaN and `hit` returns true as well. -/
theorem rect_zero_direction_hit :
    ((ieee.ray.direction ⟨⟨.fin 0, .fin 0, .fin 0⟩, ⟨.fin 1, .fin 0, .fin 0⟩, .fin 0⟩).z.isZero =
        true ∧
      (ieee.xy_rect.hit ⟨7, .fin (-1), .fin 1, .fin (-1), .fin 1, .fin 0⟩
        ⟨⟨.fin 0, .fin 0, .fin 0⟩, ⟨.fin 1, .fin 0, .fin 0⟩, .fin 0⟩ (.fin (1 / 1000)) (.fin 100)
        ieee.rec9).1 = true ∧
      (ieee.xy_rect.hit ⟨7, .fin (-1), .fin 1, .fin (-1), .fin 1, .fin 0⟩
        ⟨⟨.fin 0, .fin 0, .fin 0⟩, ⟨.fin 1, .fin 0, .fin 0⟩, .fin 0⟩ (.fin (1 / 1000)) (.fin 100)
        ieee.rec9).2.t = .nan) ∧
    ((ieee.ray.direction ⟨⟨.fin 0, .fin 0, .fin (-5)⟩, ⟨.fin 0, .fin 0, .fin 0⟩, .fin 0⟩).z.isZero =
        true ∧
      (ieee.xy_rect.hit ⟨7, .fin (-1), .fin 1, .fin (-1), .fin 1, .fin 0⟩
        ⟨⟨.fin 0, .fin 0, .fin (-5)⟩, ⟨.fin 0, .fin 0, .fin 0⟩, .fin 0⟩ (.fin (1 / 1000)) .pinf
        ieee.rec9).1 = true ∧
      (ieee.xy_rect.hit ⟨7, .fin (-1), .fin 1, .fin (-1), .fin 1, .fin 0⟩
        ⟨⟨.fin 0, .fin 0, .fin (-5)⟩, ⟨.fin 0, .fin 0, .fin 0⟩, .fin 0⟩ (.fin (1 / 1000)) .pinf
        ieee.rec9).2.t = .pinf) := by
  refine ⟨⟨?_, ?_, ?_⟩, ⟨?_, ?_, ?_⟩⟩ <;>
    norm_num [ieee.xy_rect.hit, ieee.ray.origin, ieee.ray.direction, xfloat.div, xfloat.sub,
      xfloat.add, xfloat.mul, xfloat.neg, xfloat.lt, xfloat.isNan, xfloat.isInf,
      xfloat.isZero, xfloat.isNeg, xfloat.val, xfloat.zero, xfloat.inf,
      ieee.hit_record.set_face_normal, ieee.dot] <;>
    simp

/-- C19 (as stated) fails.  For `xy_rect(-1, 1, -1, 1, k = 0)`, where `lo0 < hi0` and
`lo1 < hi1`, the ray from `(0, 0, 0)` along `(1, 0, 0)` with `t_min = 0.001` and
`t_max = 100`: `hit` returns true and writes `u = NaN` and `v = NaN`, so neither
`0 ≤ rec.u` nor `rec.v ≤ 1` holds. -/
theorem rect_uv_nan :
    xfloat.lt (.fin (-1)) (.fin 1) = true ∧
    (ieee.xy_rect.hit ⟨7, .fin (-1), .fin 1, .fin (-1), .fin 1, .fin 0⟩
        ⟨⟨.fin 0, .fin 0, .fin 0⟩, ⟨.fin 1, .fin 0, .fin 0⟩, .fin 0⟩ (.fin (1 / 1000)) (.fin 100)
        ieee.rec9).1 = true ∧
    (ieee.xy_rect.hit ⟨7, .fin (-1), .fin 1, .fin (-1), .fin 1, .fin 0⟩
        ⟨⟨.fin 0, .fin 0, .fin 0⟩, ⟨.fin 1, .fin 0, .fin 0⟩, .fin 0⟩ (.fin (1 / 1000)) (.fin 100)
        ieee.rec9).2.u = .nan ∧
    (ieee.xy_rect.hit ⟨7, .fin (-1), .fin 1, .fin (-1), .fin 1, .fin 0⟩
        ⟨⟨.fin 0, .fin 0, .fin 0⟩, ⟨.fin 1, .fin 0, .fin 0⟩, .fin 0⟩ (.fin (1 / 1000)) (.fin 100)
        ieee.rec9).2.v = .nan ∧
    xfloat.le (.fin 0) (ieee.xy_rect.hit ⟨7, .fin (-1), .fin 1, .fin (-1), .fin 1, .fin 0⟩
        ⟨⟨.fin 0, .fin 0, .fin 0⟩, ⟨.fin 1, .fin 0, .fin 0⟩, .fin 0⟩ (.fin (1 / 1000)) (.fin 100)
        ieee.rec9).2.u = false ∧
    xfloat.le (ieee.xy_rect.hit ⟨7, .fin (-1), .fin 1, .fin (-1), .fin 1, .fin 0⟩
        ⟨⟨.fin 0, .fin 0, .fin 0⟩, ⟨.fin 1, .fin 0, .fin 0⟩, .fin 0⟩ (.fin (1 / 1000)) (.fin 100)
        ieee.rec9).2.v (.fin 1) = false := by
  refine ⟨?_, ?_, ?_, ?_, ?_, ?_⟩ <;>
    norm_num [ieee.xy_rect.hit, ieee.ray.origin, ieee.ray.direction, xfloat.div, xfloat.sub,
      xfloat.add, xfloat.mul, xfloat.neg, xfloat.lt, xfloat.le, xfloat.isNan, xfloat.isInf,
      xfloat.isZero, xfloat.isNeg, xfloat.val, xfloat.zero, xfloat.inf,
      ieee.hit_record.set_face_normal, ieee.dot] <;>
    simp

theorem xy_rect_uv_unit (s : xy_rect) (r : ray) (t_min t_max : ℚ) (rec : hit_record)
    (hA : s.x0 < s.x1) (hB : s.y0 < s.y1) (ht : (s.hit r t_min t_max rec).1 = true) :
    (0 ≤ (s.hit r t_min t_max rec).2.u ∧ (s.hit r t_min t_max rec).2.u ≤ 1) ∧
    (0 ≤ (s.hit r t_min t_max rec).2.v ∧ (s.hit r t_min t_max rec).2.v ≤ 1) := by
  have hb := (xy_rect_hit_true_iff s r t_min t_max rec).1 ht
  have hA0 : 0 < s.x1 - s.x0 := sub_pos.mpr hA
  have hB0 : 0 < s.y1 - s.y0 := sub_pos.mpr hB
  rw [xy_rect_hit_true_rec s r t_min t_max rec ht]
  simp only []
  refine ⟨⟨div_nonneg ?_ hA0.le, (div_le_one hA0).mpr ?_⟩,
    ⟨div_nonneg ?_ hB0.le, (div_le_one hB0).mpr ?_⟩⟩
  · linarith [hb.2.1.1]
  · linarith [hb.2.1.2]
  · linarith [hb.2.2.1]
  · linarith [hb.2.2.2]

theorem xz_rect_uv_unit (s : xz_rect) (r : ray) (t_min t_max : ℚ) (rec : hit_record)
    (hA : s.x0 < s.x1) (hB : s.z0 < s.z1) (ht : (s.hit r t_min t_max rec).1 = true) :
    (0 ≤ (s.hit r t_min t_max rec).2.u ∧ (s.hit r t_min t_max rec).2.u ≤ 1) ∧
    (0 ≤ (s.hit r t_min t_max rec).2.v ∧ (s.hit r t_min t_max rec).2.v ≤ 1) := by
  have hb := (xz_rect_hit_true_iff s r t_min t_max rec).1 ht
  have hA0 : 0 < s.x1 - s.x0 := sub_pos.mpr hA
  have hB0 : 0 < s.z1 - s.z0 := sub_pos.mpr hB
  rw [xz_rect_hit_true_rec s r t_min t_max rec ht]
  simp only []
  refine ⟨⟨div_nonneg ?_ hA0.le, (div_le_one hA0).mpr ?_⟩,
    ⟨div_nonneg ?_ hB0.le, (div_le_one hB0).mpr ?_⟩⟩
  · linarith [hb.2.1.1]
  · linarith [hb.2.1.2]
  · linarith [hb.2.2.1]
  · linarith [hb.2.2.2]

theorem yz_rect_uv_unit (s : yz_rect) (r : ray) (t_min t_max : ℚ) (rec : hit_record)
    (hA : s.y0 < s.y1) (hB : s.z0 < s.z1) (ht : (s.hit r t_min t_max rec).1 = true) :
    (0 ≤ (s.hit r t_min t_max rec).2.u ∧ (s.hit r t_min t_max rec).2.u ≤ 1) ∧
    (0 ≤ (s.hit r t_min t_max rec).2.v ∧ (s.hit r t_min t_max rec).2.v ≤ 1) := by
  have hb := (yz_rect_hit_true_iff s r t_min t_max rec).1 ht
  have hA0 : 0 < s.y1 - s.y0 := sub_pos.mpr hA
  have hB0 : 0 < s.z1 - s.z0 := sub_pos.mpr hB
  rw [yz_rect_hit_true_rec s r t_min t_max rec ht]
  simp only []
  refine ⟨⟨div_nonneg ?_ hA0.le, (div_le_one hA0).mpr ?_⟩,
    ⟨div_nonneg ?_ hB0.le, (div_le_one hB0).mpr ?_⟩⟩
  · linarith [hb.2.1.1]
  · linarith [hb.2.1.2]
  · linarith [hb.2.2.1]
  · linarith [hb.2.2.2]

/-- C19 (as amended).  For each of `xy_rect`, `xz_rect`, `yz_rect` with `lo0 < hi0` and
`lo1 < hi1`, and every ray with non-zero direction component along the fixed axis and
every interval on which `hit` returns true: `0 ≤ rec.u ≤ 1` and `0 ≤ rec.v ≤ 1`. -/
theorem rect_uv_in_unit_interval :
    (∀ (s : xy_rect) (r : ray) (t_min t_max : ℚ) (rec : hit_record),
      s.x0 < s.x1 → s.y0 < s.y1 →
      r.direction.z ≠ 0 →
      (s.hit r t_min t_max rec).1 = true →
      (0 ≤ (s.hit r t_min t_max rec).2.u ∧ (s.hit r t_min t_max rec).2.u ≤ 1) ∧
      (0 ≤ (s.hit r t_min t_max rec).2.v ∧ (s.hit r t_min t_max rec).2.v ≤ 1)) ∧
    (∀ (s : xz_rect) (r : ray) (t_min t_max : ℚ) (rec : hit_record),
      s.x0 < s.x1 → s.z0 < s.z1 →
      r.direction.y ≠ 0 →
      (s.hit r t_min t_max rec).1 = true →
      (0 ≤ (s.hit r t_min t_max rec).2.u ∧ (s.hit r t_min t_max rec).2.u ≤ 1) ∧
      (0 ≤ (s.hit r t_min t_max rec).2.v ∧ (s.hit r t_min t_max rec).2.v ≤ 1)) ∧
    (∀ (s : yz_rect) (r : ray) (t_min t_max : ℚ) (rec : hit_record),
      s.y0 < s.y1 → s.z0 < s.z1 →
      r.direction.x ≠ 0 →
      (s.hit r t_min t_max rec).1 = true →
      (0 ≤ (s.hit r t_min t_max rec).2.u ∧ (s.hit r t_min t_max rec).2.u ≤ 1) ∧
      (0 ≤ (s.hit r t_min t_max rec).2.v ∧ (s.hit r t_min t_max rec).2.v ≤ 1)) := by
  refine ⟨?_, ?_, ?_⟩
  · intro s r t_min t_max rec hA hB _ ht
    exact xy_rect_uv_unit s r t_min t_max rec hA hB ht
  · intro s r t_min t_max rec hA hB _ ht
    exact xz_rect_uv_unit s r t_min t_max rec hA hB ht
  · intro s r t_min t_max rec hA hB _ ht
    exact yz_rect_uv_unit s r t_min t_max rec hA hB ht

/-- Instance of C19 (as amended): one slanted ray per variant. -/
theorem rect_uv_in_unit_interval_witness :
    ((xy_rect.hit ⟨7, -1, 3, 0, 4, 2⟩ ⟨⟨0, 0, -1⟩, ⟨1, 2, 3⟩, 0⟩ 0 100 rec9).2.u ≤ 1) ∧
    ((xz_rect.hit ⟨7, -1, 3, 0, 4, 2⟩ ⟨⟨0, -1, 0⟩, ⟨1, 3, 2⟩, 0⟩ 0 100 rec9).2.u ≤ 1) ∧
    ((yz_rect.hit ⟨7, -1, 3, 0, 4, 2⟩ ⟨⟨-1, 0, 0⟩, ⟨3, -1, 2⟩, 0⟩ 0 100 rec9).2.u ≤ 1) := by
  refine ⟨(rect_uv_in_unit_interval.1 _ _ 0 100 rec9 (by norm_num) (by norm_num)
      (by norm_num [ray.direction]) ?_).1.2,
    (rect_uv_in_unit_interval.2.1 _ _ 0 100 rec9 (by norm_num) (by norm_num)
      (by norm_num [ray.direction]) ?_).1.2,
    (rect_uv_in_unit_interval.2.2 _ _ 0 100 rec9 (by norm_num) (by norm_num)
      (by norm_num [ray.direction]) ?_).1.2⟩
  · rw [xy_rect_hit_true_iff]
    norm_num [ray.origin, ray.direction]
  · rw [xz_rect_hit_true_iff]
    norm_num [ray.origin, ray.direction]
  · rw [yz_rect_hit_true_iff]
    norm_num [ray.origin, ray.direction]

/-! ## The two embeddings agree away from the special values -/

theorem xfloat_mul_finite (a b : xfloat) (ha : a.isFinite = true) (hb : b.isFinite = true) :
    (xfloat.mul a b).isFinite = true ∧ (xfloat.mul a b).val = a.val * b.val := by
  have hna : a.isNan = false := by cases a <;> simp_all [xfloat.isFinite, xfloat.isNan]
  have hnb : b.isNan = false := by cases b <;> simp_all [xfloat.isFinite, xfloat.isNan]
  have hia : a.isInf = false := by cases a <;> simp_all [xfloat.isFinite, xfloat.isInf]
  have hib : b.isInf = false := by cases b <;> simp_all [xfloat.isFinite, xfloat.isInf]
  unfold xfloat.mul
  simp only [hna, hnb, hia, hib, Bool.or_self, Bool.false_and, Bool.and_false,
    Bool.false_eq_true, if_false]
  by_cases hz : (a.isZero || b.isZero) = true
  · rw [if_pos hz]
    rw [Bool.or_eq_true] at hz
    refine ⟨xfloat_zero_isFinite _, ?_⟩
    rw [xfloat_zero_val]
    rcases hz with h | h
    · rw [(xfloat_isZero_iff a ha).1 h, zero_mul]
    · rw [(xfloat_isZero_iff b hb).1 h, mul_zero]
  · rw [if_neg hz]
    exact ⟨rfl, rfl⟩

theorem xfloat_div_finite (a b : xfloat) (ha : a.isFinite = true) (hb : b.isFinite = true)
    (hb0 : b.val ≠ 0) :
    (xfloat.div a b).isFinite = true ∧ (xfloat.div a b).val = a.val / b.val := by
  have hna : a.isNan = false := by cases a <;> simp_all [xfloat.isFinite, xfloat.isNan]
  have hnb : b.isNan = false := by cases b <;> simp_all [xfloat.isFinite, xfloat.isNan]
  have hia : a.isInf = false := by cases a <;> simp_all [xfloat.isFinite, xfloat.isInf]
  have hib : b.isInf = false := by cases b <;> simp_all [xfloat.isFinite, xfloat.isInf]
  have hzb : b.isZero = false := by
    rw [← Bool.not_eq_true, xfloat_isZero_iff b hb]
    exact hb0
  unfold xfloat.div
  simp only [hna, hnb, hia, hib, hzb, Bool.or_self, Bool.false_and, Bool.and_false,
    Bool.false_or, Bool.false_eq_true, if_false]
  by_cases hz : a.isZero = true
  · rw [if_pos hz]
    refine ⟨xfloat_zero_isFinite _, ?_⟩
    rw [xfloat_zero_val, (xfloat_isZero_iff a ha).1 hz, zero_div]
  · rw [if_neg hz]
    exact ⟨rfl, rfl⟩

theorem xfloat_lt_finite (a b : xfloat) (ha : a.isFinite = true) (hb : b.isFinite = true) :
    xfloat.lt a b = decide (a.val < b.val) := by
  cases a <;> cases b <;> simp_all [xfloat.isFinite, xfloat.lt, xfloat.isNan, xfloat.val]

theorem ieee_xy_rect_hit_exact (s : xy_rect) (r : ray) (t_min t_max : ℚ)
    (rec : ieee.hit_record) (rec1 : hit_record) (hd : r.direction.z ≠ 0) :
    ((ieee.xy_rect.ofExact s).hit (ieee.ray.ofExact r) (.fin t_min) (.fin t_max) rec).1 =
      (s.hit r t_min t_max rec1).1 := by
  have hs := xfloat_sub_finite (.fin s.k) (.fin r.origin.z) rfl rfl
  have ht := xfloat_div_finite _ (.fin r.direction.z) hs.1 rfl hd
  have hmx := xfloat_mul_finite _ (.fin r.direction.x) ht.1 rfl
  have hmy := xfloat_mul_finite _ (.fin r.direction.y) ht.1 rfl
  have hx := xfloat_add_finite (.fin r.origin.x) _ rfl hmx.1
  have hy := xfloat_add_finite (.fin r.origin.y) _ rfl hmy.1
  have l1 := xfloat_lt_finite _ (.fin t_min) ht.1 rfl
  have l2 := xfloat_lt_finite (.fin t_max) _ rfl ht.1
  have l3 := xfloat_lt_finite _ (.fin s.x0) hx.1 rfl
  have l4 := xfloat_lt_finite (.fin s.x1) _ rfl hx.1
  have l5 := xfloat_lt_finite _ (.fin s.y0) hy.1 rfl
  have l6 := xfloat_lt_finite (.fin s.y1) _ rfl hy.1
  rw [hx.2, hmx.2, ht.2, hs.2] at l3 l4
  rw [hy.2, hmy.2, ht.2, hs.2] at l5 l6
  rw [ht.2, hs.2] at l1 l2
  unfold ieee.xy_rect.hit xy_rect.hit
  simp only [ieee.xy_rect.ofExact, ieee.ray.ofExact, ieee.vec3.ofExact, ieee.ray.origin,
    ieee.ray.direction, ray.origin, ray.direction, xfloat.val] at *
  simp only [l1, l2, l3, l4, l5, l6, Bool.or_eq_true, decide_eq_true_eq, gt_iff_lt, or_assoc]
  split_ifs <;> rfl

theorem ieee_xy_rect_hit_true_rec (s : ieee.xy_rect) (r : ieee.ray) (t_min t_max : xfloat)
    (rec : ieee.hit_record) (h : (s.hit r t_min t_max rec).1 = true) :
    (s.hit r t_min t_max rec).2.t = xfloat.div (xfloat.sub s.k r.origin.z) r.direction.z ∧
    (s.hit r t_min t_max rec).2.u =
      xfloat.div
        (xfloat.sub
          (xfloat.add r.origin.x
            (xfloat.mul (xfloat.div (xfloat.sub s.k r.origin.z) r.direction.z) r.direction.x))
          s.x0)
        (xfloat.sub s.x1 s.x0) ∧
    (s.hit r t_min t_max rec).2.v =
      xfloat.div
        (xfloat.sub
          (xfloat.add r.origin.y
            (xfloat.mul (xfloat.div (xfloat.sub s.k r.origin.z) r.direction.z) r.direction.y))
          s.y0)
        (xfloat.sub s.y1 s.y0) := by
  unfold ieee.xy_rect.hit at h ⊢
  simp only [] at h ⊢
  split_ifs at h ⊢ with h1 h2
  simp only [ieee.hit_record.set_face_normal]
  split_ifs <;> exact ⟨rfl, rfl, rfl⟩

theorem ieee_xy_rect_uv_exact (s : xy_rect) (r : ray) (t_min t_max : ℚ)
    (rec : ieee.hit_record) (rec1 : hit_record) (hd : r.direction.z ≠ 0)
    (hA : s.x0 ≠ s.x1) (hB : s.y0 ≠ s.y1)
    (h : ((ieee.xy_rect.ofExact s).hit (ieee.ray.ofExact r) (.fin t_min) (.fin t_max)
      rec).1 = true) :
    (((ieee.xy_rect.ofExact s).hit (ieee.ray.ofExact r) (.fin t_min) (.fin t_max)
        rec).2.t.isFinite = true ∧
      ((ieee.xy_rect.ofExact s).hit (ieee.ray.ofExact r) (.fin t_min) (.fin t_max)
        rec).2.t.val = (s.hit r t_min t_max rec1).2.t) ∧
    (((ieee.xy_rect.ofExact s).hit (ieee.ray.ofExact r) (.fin t_min) (.fin t_max)
        rec).2.u.isFinite = true ∧
      ((ieee.xy_rect.ofExact s).hit (ieee.ray.ofExact r) (.fin t_min) (.fin t_max)
        rec).2.u.val = (s.hit r t_min t_max rec1).2.u) ∧
    (((ieee.xy_rect.ofExact s).hit (ieee.ray.ofExact r) (.fin t_min) (.fin t_max)
        rec).2.v.isFinite = true ∧
      ((ieee.xy_rect.ofExact s).hit (ieee.ray.ofExact r) (.fin t_min) (.fin t_max)
        rec).2.v.val = (s.hit r t_min t_max rec1).2.v) := by
  have he : (s.hit r t_min t_max rec1).1 = true := by
    rw [← ieee_xy_rect_hit_exact s r t_min t_max rec rec1 hd]
    exact h
  have hs := xfloat_sub_finite (.fin s.k) (.fin r.origin.z) rfl rfl
  have ht := xfloat_div_finite _ (.fin r.direction.z) hs.1 rfl hd
  have hmx := xfloat_mul_finite _ (.fin r.direction.x) ht.1 rfl
  have hmy := xfloat_mul_finite _ (.fin r.direction.y) ht.1 rfl
  have hx := xfloat_add_finite (.fin r.origin.x) _ rfl hmx.1
  have hy := xfloat_add_finite (.fin r.origin.y) _ rfl hmy.1
  have hxs := xfloat_sub_finite _ (.fin s.x0) hx.1 rfl
  have hys := xfloat_sub_finite _ (.fin s.y0) hy.1 rfl
  have hwx := xfloat_sub_finite (.fin s.x1) (.fin s.x0) rfl rfl
  have hwy := xfloat_sub_finite (.fin s.y1) (.fin s.y0) rfl rfl
  have hu := xfloat_div_finite _ _ hxs.1 hwx.1
    (by rw [hwx.2]; exact sub_ne_zero.mpr (Ne.symm hA))
  have hv := xfloat_div_finite _ _ hys.1 hwy.1
    (by rw [hwy.2]; exact sub_ne_zero.mpr (Ne.symm hB))
  obtain ⟨e1, e2, e3⟩ := ieee_xy_rect_hit_true_rec _ _ _ _ rec h
  rw [e1, e2, e3, xy_rect_hit_true_rec s r t_min t_max rec1 he]
  simp only [ieee.xy_rect.ofExact, ieee.ray.ofExact, ieee.vec3.ofExact, ieee.ray.origin,
    ieee.ray.direction, ray.origin, ray.direction, xfloat.val] at *
  refine ⟨⟨ht.1, ?_⟩, ⟨hu.1, ?_⟩, ⟨hv.1, ?_⟩⟩
  · rw [ht.2, hs.2]
  · rw [hu.2, hxs.2, hwx.2, hx.2, hmx.2, ht.2, hs.2]
  · rw [hv.2, hys.2, hwy.2, hy.2, hmy.2, ht.2, hs.2]

theorem ieee_xz_rect_hit_exact (s : xz_rect) (r : ray) (t_min t_max : ℚ)
    (rec : ieee.hit_record) (rec1 : hit_record) (hd : r.direction.y ≠ 0) :
    ((ieee.xz_rect.ofExact s).hit (ieee.ray.ofExact r) (.fin t_min) (.fin t_max) rec).1 =
      (s.hit r t_min t_max rec1).1 := by
  have hs := xfloat_sub_finite (.fin s.k) (.fin r.origin.y) rfl rfl
  have ht := xfloat_div_finite _ (.fin r.direction.y) hs.1 rfl hd
  have hmx := xfloat_mul_finite _ (.fin r.direction.x) ht.1 rfl
  have hmy := xfloat_mul_finite _ (.fin r.direction.z) ht.1 rfl
  have hx := xfloat_add_finite (.fin r.origin.x) _ rfl hmx.1
  have hy := xfloat_add_finite (.fin r.origin.z) _ rfl hmy.1
  have l1 := xfloat_lt_finite _ (.fin t_min) ht.1 rfl
  have l2 := xfloat_lt_finite (.fin t_max) _ rfl ht.1
  have l3 := xfloat_lt_finite _ (.fin s.x0) hx.1 rfl
  have l4 := xfloat_lt_finite (.fin s.x1) _ rfl hx.1
  have l5 := xfloat_lt_finite _ (.fin s.z0) hy.1 rfl
  have l6 := xfloat_lt_finite (.fin s.z1) _ rfl hy.1
  rw [hx.2, hmx.2, ht.2, hs.2] at l3 l4
  rw [hy.2, hmy.2, ht.2, hs.2] at l5 l6
  rw [ht.2, hs.2] at l1 l2
  unfold ieee.xz_rect.hit xz_rect.hit
  simp only [ieee.xz_rect.ofExact, ieee.ray.ofExact, ieee.vec3.ofExact, ieee.ray.origin,
    ieee.ray.direction, ray.origin, ray.direction, xfloat.val] at *
  simp only [l1, l2, l3, l4, l5, l6, Bool.or_eq_true, decide_eq_true_eq, gt_iff_lt, or_assoc]
  split_ifs <;> rfl

theorem ieee_xz_rect_hit_true_rec (s : ieee.xz_rect) (r : ieee.ray) (t_min t_max : xfloat)
    (rec : ieee.hit_record) (h : (s.hit r t_min t_max rec).1 = true) :
    (s.hit r t_min t_max rec).2.t = xfloat.div (xfloat.sub s.k r.origin.y) r.direction.y ∧
    (s.hit r t_min t_max rec).2.u =
      xfloat.div
        (xfloat.sub
          (xfloat.add r.origin.x
            (xfloat.mul (xfloat.div (xfloat.sub s.k r.origin.y) r.direction.y) r.direction.x))
          s.x0)
        (xfloat.sub s.x1 s.x0) ∧
    (s.hit r t_min t_max rec).2.v =
      xfloat.div
        (xfloat.sub
          (xfloat.add r.origin.z
            (xfloat.mul (xfloat.div (xfloat.sub s.k r.origin.y) r.direction.y) r.direction.z))
          s.z0)
        (xfloat.sub s.z1 s.z0) := by
  unfold ieee.xz_rect.hit at h ⊢
  simp only [] at h ⊢
  split_ifs at h ⊢ with h1 h2
  simp only [ieee.hit_record.set_face_normal]
  split_ifs <;> exact ⟨rfl, rfl, rfl⟩

theorem ieee_xz_rect_uv_exact (s : xz_rect) (r : ray) (t_min t_max : ℚ)
    (rec : ieee.hit_record) (rec1 : hit_record) (hd : r.direction.y ≠ 0)
    (hA : s.x0 ≠ s.x1) (hB : s.z0 ≠ s.z1)
    (h : ((ieee.xz_rect.ofExact s).hit (ieee.ray.ofExact r) (.fin t_min) (.fin t_max)
      rec).1 = true) :
    (((ieee.xz_rect.ofExact s).hit (ieee.ray.ofExact r) (.fin t_min) (.fin t_max)
        rec).2.t.isFinite = true ∧
      ((ieee.xz_rect.ofExact s).hit (ieee.ray.ofExact r) (.fin t_min) (.fin t_max)
        rec).2.t.val = (s.hit r t_min t_max rec1).2.t) ∧
    (((ieee.xz_rect.ofExact s).hit (ieee.ray.ofExact r) (.fin t_min) (.fin t_max)
        rec).2.u.isFinite = true ∧
      ((ieee.xz_rect.ofExact s).hit (ieee.ray.ofExact r) (.fin t_min) (.fin t_max)
        rec).2.u.val = (s.hit r t_min t_max rec1).2.u) ∧
    (((ieee.xz_rect.ofExact s).hit (ieee.ray.ofExact r) (.fin t_min) (.fin t_max)
        rec).2.v.isFinite = true ∧
      ((ieee.xz_rect.ofExact s).hit (ieee.ray.ofExact r) (.fin t_min) (.fin t_max)
        rec).2.v.val = (s.hit r t_min t_max rec1).2.v) := by
  have he : (s.hit r t_min t_max rec1).1 = true := by
    rw [← ieee_xz_rect_hit_exact s r t_min t_max rec rec1 hd]
    exact h
  have hs := xfloat_sub_finite (.fin s.k) (.fin r.origin.y) rfl rfl
  have ht := xfloat_div_finite _ (.fin r.direction.y) hs.1 rfl hd
  have hmx := xfloat_mul_finite _ (.fin r.direction.x) ht.1 rfl
  have hmy := xfloat_mul_finite _ (.fin r.direction.z) ht.1 rfl
  have hx := xfloat_add_finite (.fin r.origin.x) _ rfl hmx.1
  have hy := xfloat_add_finite (.fin r.origin.z) _ rfl hmy.1
  have hxs := xfloat_sub_finite _ (.fin s.x0) hx.1 rfl
  have hys := xfloat_sub_finite _ (.fin s.z0) hy.1 rfl
  have hwx := xfloat_sub_finite (.fin s.x1) (.fin s.x0) rfl rfl
  have hwy := xfloat_sub_finite (.fin s.z1) (.fin s.z0) rfl rfl
  have hu := xfloat_div_finite _ _ hxs.1 hwx.1
    (by rw [hwx.2]; exact sub_ne_zero.mpr (Ne.symm hA))
  have hv := xfloat_div_finite _ _ hys.1 hwy.1
    (by rw [hwy.2]; exact sub_ne_zero.mpr (Ne.symm hB))
  obtain ⟨e1, e2, e3⟩ := ieee_xz_rect_hit_true_rec _ _ _ _ rec h
  rw [e1, e2, e3, xz_rect_hit_true_rec s r t_min t_max rec1 he]
  simp only [ieee.xz_rect.ofExact, ieee.ray.ofExact, ieee.vec3.ofExact, ieee.ray.origin,
    ieee.ray.direction, ray.origin, ray.direction, xfloat.val] at *
  refine ⟨⟨ht.1, ?_⟩, ⟨hu.1, ?_⟩, ⟨hv.1, ?_⟩⟩
  · rw [ht.2, hs.2]
  · rw [hu.2, hxs.2, hwx.2, hx.2, hmx.2, ht.2, hs.2]
  · rw [hv.2, hys.2, hwy.2, hy.2, hmy.2, ht.2, hs.2]

theorem ieee_yz_rect_hit_exact (s : yz_rect) (r : ray) (t_min t_max : ℚ)
    (rec : ieee.hit_record) (rec1 : hit_record) (hd : r.direction.x ≠ 0) :
    ((ieee.yz_rect.ofExact s).hit (ieee.ray.ofExact r) (.fin t_min) (.fin t_max) rec).1 =
      (s.hit r t_min t_max rec1).1 := by
  have hs := xfloat_sub_finite (.fin s.k) (.fin r.origin.x) rfl rfl
  have ht := xfloat_div_finite _ (.fin r.direction.x) hs.1 rfl hd
  have hmx := xfloat_mul_finite _ (.fin r.direction.y) ht.1 rfl
  have hmy := xfloat_mul_finite _ (.fin r.direction.z) ht.1 rfl
  have hx := xfloat_add_finite (.fin r.origin.y) _ rfl hmx.1
  have hy := xfloat_add_finite (.fin r.origin.z) _ rfl hmy.1
  have l1 := xfloat_lt_finite _ (.fin t_min) ht.1 rfl
  have l2 := xfloat_lt_finite (.fin t_max) _ rfl ht.1
  have l3 := xfloat_lt_finite _ (.fin s.y0) hx.1 rfl
  have l4 := xfloat_lt_finite (.fin s.y1) _ rfl hx.1
  have l5 := xfloat_lt_finite _ (.fin s.z0) hy.1 rfl
  have l6 := xfloat_lt_finite (.fin s.z1) _ rfl hy.1
  rw [hx.2, hmx.2, ht.2, hs.2] at l3 l4
  rw [hy.2, hmy.2, ht.2, hs.2] at l5 l6
  rw [ht.2, hs.2] at l1 l2
  unfold ieee.yz_rect.hit yz_rect.hit
  simp only [ieee.yz_rect.ofExact, ieee.ray.ofExact, ieee.vec3.ofExact, ieee.ray.origin,
    ieee.ray.direction, ray.origin, ray.direction, xfloat.val] at *
  simp only [l1, l2, l3, l4, l5, l6, Bool.or_eq_true, decide_eq_true_eq, gt_iff_lt, or_assoc]
  split_ifs <;> rfl

theorem ieee_yz_rect_hit_true_rec (s : ieee.yz_rect) (r : ieee.ray) (t_min t_max : xfloat)
    (rec : ieee.hit_record) (h : (s.hit r t_min t_max rec).1 = true) :
    (s.hit r t_min t_max rec).2.t = xfloat.div (xfloat.sub s.k r.origin.x) r.direction.x ∧
    (s.hit r t_min t_max rec).2.u =
      xfloat.div
        (xfloat.sub
          (xfloat.add r.origin.y
            (xfloat.mul (xfloat.div (xfloat.sub s.k r.origin.x) r.direction.x) r.direction.y))
          s.y0)
        (xfloat.sub s.y1 s.y0) ∧
    (s.hit r t_min t_max rec).2.v =
      xfloat.div
        (xfloat.sub
          (xfloat.add r.origin.z
            (xfloat.mul (xfloat.div (xfloat.sub s.k r.origin.x) r.direction.x) r.direction.z))
          s.z0)
        (xfloat.sub s.z1 s.z0) := by
  unfold ieee.yz_rect.hit at h ⊢
  simp only [] at h ⊢
  split_ifs at h ⊢ with h1 h2
  simp only [ieee.hit_record.set_face_normal]
  split_ifs <;> exact ⟨rfl, rfl, rfl⟩

theorem ieee_yz_rect_uv_exact (s : yz_rect) (r : ray) (t_min t_max : ℚ)
    (rec : ieee.hit_record) (rec1 : hit_record) (hd : r.direction.x ≠ 0)
    (hA : s.y0 ≠ s.y1) (hB : s.z0 ≠ s.z1)
    (h : ((ieee.yz_rect.ofExact s).hit (ieee.ray.ofExact r) (.fin t_min) (.fin t_max)
      rec).1 = true) :
    (((ieee.yz_rect.ofExact s).hit (ieee.ray.ofExact r) (.fin t_min) (.fin t_max)
        rec).2.t.isFinite = true ∧
      ((ieee.yz_rect.ofExact s).hit (ieee.ray.ofExact r) (.fin t_min) (.fin t_max)
        rec).2.t.val = (s.hit r t_min t_max rec1).2.t) ∧
    (((ieee.yz_rect.ofExact s).hit (ieee.ray.ofExact r) (.fin t_min) (.fin t_max)
        rec).2.u.isFinite = true ∧
      ((ieee.yz_rect.ofExact s).hit (ieee.ray.ofExact r) (.fin t_min) (.fin t_max)
        rec).2.u.val = (s.hit r t_min t_max rec1).2.u) ∧
    (((ieee.yz_rect.ofExact s).hit (ieee.ray.ofExact r) (.fin t_min) (.fin t_max)
        rec).2.v.isFinite = true ∧
      ((ieee.yz_rect.ofExact s).hit (ieee.ray.ofExact r) (.fin t_min) (.fin t_max)
        rec).2.v.val = (s.hit r t_min t_max rec1).2.v) := by
  have he : (s.hit r t_min t_max rec1).1 = true := by
    rw [← ieee_yz_rect_hit_exact s r t_min t_max rec rec1 hd]
    exact h
  have hs := xfloat_sub_finite (.fin s.k) (.fin r.origin.x) rfl rfl
  have ht := xfloat_div_finite _ (.fin r.direction.x) hs.1 rfl hd
  have hmx := xfloat_mul_finite _ (.fin r.direction.y) ht.1 rfl
  have hmy := xfloat_mul_finite _ (.fin r.direction.z) ht.1 rfl
  have hx := xfloat_add_finite (.fin r.origin.y) _ rfl hmx.1
  have hy := xfloat_add_finite (.fin r.origin.z) _ rfl hmy.1
  have hxs := xfloat_sub_finite _ (.fin s.y0) hx.1 rfl
  have hys := xfloat_sub_finite _ (.fin s.z0) hy.1 rfl
  have hwx := xfloat_sub_finite (.fin s.y1) (.fin s.y0) rfl rfl
  have hwy := xfloat_sub_finite (.fin s.z1) (.fin s.z0) rfl rfl
  have hu := xfloat_div_finite _ _ hxs.1 hwx.1
    (by rw [hwx.2]; exact sub_ne_zero.mpr (Ne.symm hA))
  have hv := xfloat_div_finite _ _ hys.1 hwy.1
    (by rw [hwy.2]; exact sub_ne_zero.mpr (Ne.symm hB))
  obtain ⟨e1, e2, e3⟩ := ieee_yz_rect_hit_true_rec _ _ _ _ rec h
  rw [e1, e2, e3, yz_rect_hit_true_rec s r t_min t_max rec1 he]
  simp only [ieee.yz_rect.ofExact, ieee.ray.ofExact, ieee.vec3.ofExact, ieee.ray.origin,
    ieee.ray.direction, ray.origin, ray.direction, xfloat.val] at *
  refine ⟨⟨ht.1, ?_⟩, ⟨hu.1, ?_⟩, ⟨hv.1, ?_⟩⟩
  · rw [ht.2, hs.2]
  · rw [hu.2, hxs.2, hwx.2, hx.2, hmx.2, ht.2, hs.2]
  · rw [hv.2, hys.2, hwy.2, hy.2, hmy.2, ht.2, hs.2]

theorem xfloat_le_finite (a b : xfloat) (ha : a.isFinite = true) (hb : b.isFinite = true) :
    xfloat.le a b = decide (a.val ≤ b.val) := by
  cases a <;> cases b <;> simp_all [xfloat.isFinite, xfloat.le, xfloat.isNan, xfloat.val]

theorem ieee_xy_rect_uv_unit (s : xy_rect) (r : ray) (t_min t_max : ℚ) (rec : ieee.hit_record)
    (hd : r.direction.z ≠ 0) (hA : s.x0 < s.x1) (hB : s.y0 < s.y1)
    (h : ((ieee.xy_rect.ofExact s).hit (ieee.ray.ofExact r) (.fin t_min) (.fin t_max)
      rec).1 = true) :
    (xfloat.le (.fin 0) ((ieee.xy_rect.ofExact s).hit (ieee.ray.ofExact r) (.fin t_min)
        (.fin t_max) rec).2.u = true ∧
      xfloat.le ((ieee.xy_rect.ofExact s).hit (ieee.ray.ofExact r) (.fin t_min)
        (.fin t_max) rec).2.u (.fin 1) = true) ∧
    (xfloat.le (.fin 0) ((ieee.xy_rect.ofExact s).hit (ieee.ray.ofExact r) (.fin t_min)
        (.fin t_max) rec).2.v = true ∧
      xfloat.le ((ieee.xy_rect.ofExact s).hit (ieee.ray.ofExact r) (.fin t_min)
        (.fin t_max) rec).2.v (.fin 1) = true) := by
  have he : (s.hit r t_min t_max rec0).1 = true := by
    rw [← ieee_xy_rect_hit_exact s r t_min t_max rec rec0 hd]
    exact h
  obtain ⟨-, ⟨fu, vu⟩, fv, vv⟩ :=
    ieee_xy_rect_uv_exact s r t_min t_max rec rec0 hd (ne_of_lt hA) (ne_of_lt hB) h
  have hq := xy_rect_uv_unit s r t_min t_max rec0 hA hB he
  rw [xfloat_le_finite (.fin 0) _ rfl fu, xfloat_le_finite _ (.fin 1) fu rfl,
    xfloat_le_finite (.fin 0) _ rfl fv, xfloat_le_finite _ (.fin 1) fv rfl, vu, vv]
  simp only [xfloat.val, decide_eq_true_eq]
  exact hq

theorem ieee_xz_rect_uv_unit (s : xz_rect) (r : ray) (t_min t_max : ℚ) (rec : ieee.hit_record)
    (hd : r.direction.y ≠ 0) (hA : s.x0 < s.x1) (hB : s.z0 < s.z1)
    (h : ((ieee.xz_rect.ofExact s).hit (ieee.ray.ofExact r) (.fin t_min) (.fin t_max)
      rec).1 = true) :
    (xfloat.le (.fin 0) ((ieee.xz_rect.ofExact s).hit (ieee.ray.ofExact r) (.fin t_min)
        (.fin t_max) rec).2.u = true ∧
      xfloat.le ((ieee.xz_rect.ofExact s).hit (ieee.ray.ofExact r) (.fin t_min)
        (.fin t_max) rec).2.u (.fin 1) = true) ∧
    (xfloat.le (.fin 0) ((ieee.xz_rect.ofExact s).hit (ieee.ray.ofExact r) (.fin t_min)
        (.fin t_max) rec).2.v = true ∧
      xfloat.le ((ieee.xz_rect.ofExact s).hit (ieee.ray.ofExact r) (.fin t_min)
        (.fin t_max) rec).2.v (.fin 1) = true) := by
  have he : (s.hit r t_min t_max rec0).1 = true := by
    rw [← ieee_xz_rect_hit_exact s r t_min t_max rec rec0 hd]
    exact h
  obtain ⟨-, ⟨fu, vu⟩, fv, vv⟩ :=
    ieee_xz_rect_uv_exact s r t_min t_max rec rec0 hd (ne_of_lt hA) (ne_of_lt hB) h
  have hq := xz_rect_uv_unit s r t_min t_max rec0 hA hB he
  rw [xfloat_le_finite (.fin 0) _ rfl fu, xfloat_le_finite _ (.fin 1) fu rfl,
    xfloat_le_finite (.fin 0) _ rfl fv, xfloat_le_finite _ (.fin 1) fv rfl, vu, vv]
  simp only [xfloat.val, decide_eq_true_eq]
  exact hq

theorem ieee_yz_rect_uv_unit (s : yz_rect) (r : ray) (t_min t_max : ℚ) (rec : ieee.hit_record)
    (hd : r.direction.x ≠ 0) (hA : s.y0 < s.y1) (hB : s.z0 < s.z1)
    (h : ((ieee.yz_rect.ofExact s).hit (ieee.ray.ofExact r) (.fin t_min) (.fin t_max)
      rec).1 = true) :
    (xfloat.le (.fin 0) ((ieee.yz_rect.ofExact s).hit (ieee.ray.ofExact r) (.fin t_min)
        (.fin t_max) rec).2.u = true ∧
      xfloat.le ((ieee.yz_rect.ofExact s).hit (ieee.ray.ofExact r) (.fin t_min)
        (.fin t_max) rec).2.u (.fin 1) = true) ∧
    (xfloat.le (.fin 0) ((ieee.yz_rect.ofExact s).hit (ieee.ray.ofExact r) (.fin t_min)
        (.fin t_max) rec).2.v = true ∧
      xfloat.le ((ieee.yz_rect.ofExact s).hit (ieee.ray.ofExact r) (.fin t_min)
        (.fin t_max) rec).2.v (.fin 1) = true) := by
  have he : (s.hit r t_min t_max rec0).1 = true := by
    rw [← ieee_yz_rect_hit_exact s r t_min t_max rec rec0 hd]
    exact h
  obtain ⟨-, ⟨fu, vu⟩, fv, vv⟩ :=
    ieee_yz_rect_uv_exact s r t_min t_max rec rec0 hd (ne_of_lt hA) (ne_of_lt hB) h
  have hq := yz_rect_uv_unit s r t_min t_max rec0 hA hB he
  rw [xfloat_le_finite (.fin 0) _ rfl fu, xfloat_le_finite _ (.fin 1) fu rfl,
    xfloat_le_finite (.fin 0) _ rfl fv, xfloat_le_finite _ (.fin 1) fv rfl, vu, vv]
  simp only [xfloat.val, decide_eq_true_eq]
  exact hq

/-! ## C11: the radius test in binary32 -/

theorem int_log_two_eq (q : ℚ) (e : ℤ) (h1 : (2 : ℚ) ^ e ≤ q) (h2 : q < (2 : ℚ) ^ (e + 1)) :
    Int.log 2 q = e := by
  have hq : 0 < q := lt_of_lt_of_le (zpow_pos (by norm_num) e) h1
  have a : e ≤ Int.log 2 q :=
    (Int.zpow_le_iff_le_log (by norm_num) hq).1 (by exact_mod_cast h1)
  have b : Int.log 2 q < e + 1 :=
    (Int.lt_zpow_iff_log_lt (by norm_num) hq).1 (by exact_mod_cast h2)
  omega

theorem round32_eq (q : ℚ) (e n : ℤ) (h1 : (2 : ℚ) ^ e ≤ |q|) (h2 : |q| < (2 : ℚ) ^ (e + 1))
    (h3 : (n : ℚ) ≤ q / 2 ^ (e - 23)) (h4 : q / 2 ^ (e - 23) < n + 1 / 2) :
    round32 q = n * 2 ^ (e - 23) := by
  have hq : q ≠ 0 := by
    intro h0
    rw [h0, abs_zero] at h1
    exact absurd h1 (not_le.mpr (zpow_pos (by norm_num) e))
  have hl := int_log_two_eq |q| e h1 h2
  have hf : ⌊q / (2 : ℚ) ^ (e - 23)⌋ = n := by
    rw [Int.floor_eq_iff]
    exact ⟨h3, by linarith⟩
  unfold round32
  simp only [hq, if_false, hl, hf]
  rw [if_pos (by linarith)]

theorem round32_eq_pos (q : ℚ) (e n : ℤ) (h1 : (2 : ℚ) ^ e ≤ q) (h2 : q < (2 : ℚ) ^ (e + 1))
    (h3 : (n : ℚ) ≤ q / 2 ^ (e - 23)) (h4 : q / 2 ^ (e - 23) < n + 1 / 2) :
    round32 q = n * 2 ^ (e - 23) := by
  have hq : 0 < q := lt_of_lt_of_le (zpow_pos (by norm_num) e) h1
  exact round32_eq q e n (by rwa [abs_of_pos hq]) (by rwa [abs_of_pos hq]) h3 h4

theorem eps32_rounded : eps32 = round32 (1 / 10000) := by
  rw [round32_eq_pos (1 / 10000) (-14) 13743895 (by norm_num) (by norm_num) (by norm_num)
    (by norm_num)]
  norm_num [eps32]

end Hittable2D
